import Mathlib

/-!
# transaction_client: a shallow embedding of the transaction entity and the broadcast / poll engine

Sources embedded here:

* `transaction.go`: `TransactionStatus`, the status constants, `transaction`, `NewTransaction`;
* `client.go`: the error values, `Client`, `PollingOptions`, `defaultPollingOptions`,
  `NewClient`, `Client.Broadcast`, `Client.setPollingOptions`, `Client.Poll`, `makeReq`.

Everything outside the package is an explicit environment:

* the remote endpoint answers each request with a `Reply` (a transport error or a response);
  the replies are inputs, the requests that were issued are recorded in `Net.sent`;
* the body of a response is represented by the outcome of decoding it into the one-field
  struct its reader declares (`Body`);
* the `select` of the polling loop reads a schedule of `SelectEvent`s: each element says which
  channel fired (the context's `Done` channel or the ticker); a schedule that runs out while the
  loop is still waiting yields `Exit.blocked`;
* `net/url.JoinPath` is a parameter of `Client.Poll`;
* `*PollingOptions` is a pointer: it is nil, the address of the package-level
  `defaultPollingOptions`, or the address of an object of the caller (`OptionsPtr`); the
  current value of the package-level variable is carried in `Globals`.

`uint64` values are natural numbers (no arithmetic is performed on them); `time.Duration` is an
integer number of nanoseconds.

The life of one transaction is a list of calls (`Op`), each with the client it is made on and
what the environment delivers during it; `run` gives the state after the calls, whichever way
each of them ended.
-/

namespace TransactionClient

/-! ## transaction.go -/

/-- The Go type `TransactionStatus` is a string type. -/
abbrev TransactionStatus := String

def StatusConfirm : TransactionStatus := "CONFIRMED"
def StatusFailed : TransactionStatus := "FAILED"
def StatusPending : TransactionStatus := "PENDING"
def StatusDNE : TransactionStatus := "DNE"
def statusInit : TransactionStatus := "INIT"

/-- Go error values: the four values declared in `client.go`, the error of the
struct validator (the names of the fields that failed), and errors of the standard library
(transport, decoding, URL parsing), which the package passes through uninterpreted. -/
inductive Error where
  | ErrAlreadyBroadcast
  | ErrHashNotFound
  | ErrNotSuccessStatus
  | ErrPolling
  | validation (fields : List String)
  | other (msg : String)
  deriving DecidableEq, Repr

deriving instance DecidableEq for Except

/-- The struct `transaction`. `hash` and `status` are its unexported fields. -/
structure transaction where
  Symbol : String
  Price : Nat
  Timestamp : Nat
  hash : String
  status : TransactionStatus
  deriving DecidableEq, Repr

/-- Modelled from the spec: the call `validate.Struct(t)`. The validator is the library
go-playground/validator, whose code is not among the sources. In `transaction.go` the fields
Symbol, Price and Timestamp carry the tag `required`, which rejects the zero value of the
field's type: the symbol must be non-empty, price and timestamp non-zero, and the error
enumerates the fields that failed (here by name, in declaration order). -/
def validateStruct (t : transaction) : Option Error :=
  let failed : List String :=
    (if t.Symbol = "" then ["Symbol"] else []) ++
    (if t.Price = 0 then ["Price"] else []) ++
    (if t.Timestamp = 0 then ["Timestamp"] else [])
  if failed.isEmpty then none else some (Error.validation failed)

/-- The function `NewTransaction`. The struct literal leaves `hash` at its zero value. -/
def NewTransaction (symbol : String) (price timestamp : Nat) : Except Error transaction :=
  let t : transaction :=
    { Symbol := symbol, Price := price, Timestamp := timestamp, hash := "", status := statusInit }
  match validateStruct t with
  | some err => Except.error err
  | none => Except.ok t

def transaction.Hash (t : transaction) : String := t.hash

def transaction.Status (t : transaction) : TransactionStatus := t.status

/-! ## The environment of client.go -/

/-- The JSON object `json.Marshal` produces for a `transaction`: the three exported fields under
their tags; `hash` and `status` are tagged `json:"-"`. -/
structure Payload where
  symbol : String
  price : Nat
  timestamp : Nat
  deriving DecidableEq, Repr

/-- The call `json.Marshal(tx)`; it has no failing case for a struct of a string and two integers. -/
def jsonMarshal (tx : transaction) : Except Error Payload :=
  Except.ok { symbol := tx.Symbol, price := tx.Price, timestamp := tx.Timestamp }

/-- A request issued by the package. -/
inductive Request where
  | post (url contentType : String) (body : Payload)
  | get (url : String)
  deriving DecidableEq, Repr

/-- What `json.NewDecoder(res.Body).Decode(resData)` does with a body, `resData` being a struct
with one string field: it fails, or it succeeds and the field's key was absent (`none`) or held
a string. -/
inductive Body where
  | undecodable (err : Error)
  | decoded (field : Option String)
  deriving DecidableEq, Repr

/-- The decoded struct: a key that is absent leaves the field at its zero value. -/
def Body.decode : Body → Except Error String
  | Body.undecodable err => Except.error err
  | Body.decoded field => Except.ok (field.getD "")

structure Response where
  StatusCode : Int
  Body : Body
  deriving DecidableEq, Repr

/-- The outcome of one exchange: the transport's error or the response. -/
abbrev Reply := Except Error Response

def StatusOK : Int := 200

/-- The requests issued so far, oldest first. -/
structure Net where
  sent : List Request
  deriving DecidableEq, Repr

/-- The call `http.Post(url, contentType, body)`: the request is issued, the endpoint's reply is returned. -/
def httpPost (net : Net) (url contentType : String) (body : Payload) (reply : Reply) : Reply × Net :=
  (reply, { sent := net.sent ++ [Request.post url contentType body] })

/-- The call `http.Get(url)`. -/
def httpGet (net : Net) (url : String) (reply : Reply) : Reply × Net :=
  (reply, { sent := net.sent ++ [Request.get url] })

/-! ## client.go -/

abbrev PollingHandler := TransactionStatus → Bool

/-- One nanosecond is the unit of `time.Duration`. -/
def Second : Int := 1000000000

/-- The struct `PollingOptions`; a nil func value is `none`. -/
structure PollingOptions where
  Interval : Int
  Handler : Option PollingHandler

/-- The func literal in the declaration of `defaultPollingOptions`. -/
def defaultHandler : PollingHandler := fun s => s == StatusPending

/-- The value `defaultPollingOptions` is declared with. -/
def defaultPollingOptions : PollingOptions :=
  { Interval := 5 * Second, Handler := some defaultHandler }

/-- The package-level variables that can change: the object `defaultPollingOptions` points to. -/
structure Globals where
  defaultPollingOptions : PollingOptions

/-- The package-level state as declared. -/
def Globals.declared : Globals :=
  { defaultPollingOptions := TransactionClient.defaultPollingOptions }

/-- A value of type `*PollingOptions`. -/
inductive OptionsPtr where
  | nil
  | shared
  | owned (o : PollingOptions)

structure Client where
  BroadcastUrl : String
  BasePollingUrl : String
  PollingOptions : OptionsPtr

def NewClient (broadcastPath basePollingPath : String) : Client :=
  { BroadcastUrl := broadcastPath, BasePollingUrl := basePollingPath,
    PollingOptions := OptionsPtr.shared }

/-- The object `c.PollingOptions` points to, if the pointer is not nil. -/
def Client.deref (c : Client) (g : Globals) : Option TransactionClient.PollingOptions :=
  match c.PollingOptions with
  | OptionsPtr.nil => none
  | OptionsPtr.shared => some g.defaultPollingOptions
  | OptionsPtr.owned o => some o

/-- A write through `c.PollingOptions`: the object pointed to becomes `o`. -/
def Client.assign (c : Client) (g : Globals) (o : TransactionClient.PollingOptions) :
    Client × Globals :=
  match c.PollingOptions with
  | OptionsPtr.nil => (c, g)
  | OptionsPtr.shared => (c, { g with defaultPollingOptions := o })
  | OptionsPtr.owned _ => ({ c with PollingOptions := OptionsPtr.owned o }, g)

structure BroadcastResult where
  err : Option Error
  tx : transaction
  net : Net
  deriving DecidableEq, Repr

/-- The method `Client.Broadcast`; `reply` is the endpoint's answer to the POST, if one is sent. -/
def Client.Broadcast (c : Client) (tx : transaction) (net : Net) (reply : Reply) : BroadcastResult :=
  if tx.status ≠ statusInit then
    { err := some Error.ErrAlreadyBroadcast, tx := tx, net := net }
  else
    match jsonMarshal tx with
    | Except.error err => { err := some err, tx := tx, net := net }
    | Except.ok reqData =>
      match httpPost net c.BroadcastUrl "application/json" reqData reply with
      | (Except.error err, net1) => { err := some err, tx := tx, net := net1 }
      | (Except.ok res, net1) =>
        if res.StatusCode ≠ StatusOK then
          { err := some Error.ErrNotSuccessStatus, tx := tx, net := net1 }
        else
          match res.Body.decode with
          | Except.error err => { err := some err, tx := tx, net := net1 }
          | Except.ok resDataHash =>
            if resDataHash = "" then
              { err := some Error.ErrHashNotFound, tx := tx, net := net1 }
            else
              { err := none, tx := { tx with hash := resDataHash, status := StatusPending },
                net := net1 }

/-- The method `Client.setPollingOptions`. -/
def Client.setPollingOptions (c : Client) (g : Globals) : Client × Globals :=
  match c.deref g with
  | none => ({ c with PollingOptions := OptionsPtr.shared }, g)
  | some o =>
    let s1 : Client × Globals :=
      if o.Interval = 0 then
        c.assign g { o with Interval := g.defaultPollingOptions.Interval }
      else (c, g)
    match s1.1.deref s1.2 with
    | none => s1
    | some o1 =>
      if o1.Handler.isNone then
        s1.1.assign s1.2 { o1 with Handler := s1.2.defaultPollingOptions.Handler }
      else s1

/-- The function `makeReq`. -/
def makeReq (net : Net) (url : String) (reply : Reply) : Except Error TransactionStatus × Net :=
  match httpGet net url reply with
  | (Except.error err, net1) => (Except.error err, net1)
  | (Except.ok res, net1) =>
    if res.StatusCode ≠ StatusOK then
      (Except.error Error.ErrNotSuccessStatus, net1)
    else
      match res.Body.decode with
      | Except.error err => (Except.error err, net1)
      | Except.ok resDataStatus => (Except.ok resDataStatus, net1)

/-- What the `select` of the polling loop receives: the context is done, or the ticker fired
(then `reply` is what the endpoint answers to the status query of that tick). -/
inductive SelectEvent where
  | done
  | tick (reply : Reply)
  deriving DecidableEq

/-- How a call of `Poll` ends: it returns its result `err`, it panics, or it is still waiting in
`select` when the schedule ends. -/
inductive Exit where
  | returned (err : Option Error)
  | panicked
  | blocked
  deriving DecidableEq, Repr

structure LoopResult where
  exit : Exit
  tx : transaction
  net : Net
  deriving DecidableEq, Repr

/-- The `for { select { ... } }` of `Poll`. `err` is the named result of `Poll`, which the bare
`return`s hand back; `c.Handler` is read through the pointer `c.PollingOptions`. -/
def Client.pollLoop (c : Client) (g : Globals) (url : String) :
    Option Error → transaction → Net → List SelectEvent → LoopResult
  | _, tx, net, [] => { exit := Exit.blocked, tx := tx, net := net }
  | err, tx, net, SelectEvent.done :: _ => { exit := Exit.returned err, tx := tx, net := net }
  | _, tx, net, SelectEvent.tick reply :: rest =>
    match makeReq net url reply with
    | (Except.error err1, net1) => { exit := Exit.returned (some err1), tx := tx, net := net1 }
    | (Except.ok status, net1) =>
      let tx1 : transaction := { tx with status := status }
      match (c.deref g).bind (fun o => o.Handler) with
      | none => { exit := Exit.panicked, tx := tx1, net := net1 }
      | some handler =>
        if !handler tx1.status then
          { exit := Exit.returned none, tx := tx1, net := net1 }
        else
          c.pollLoop g url none tx1 net1 rest

structure PollResult where
  exit : Exit
  tx : transaction
  net : Net
  c : Client
  g : Globals

/-- The method `Client.Poll`. `urlJoinPath` is `net/url.JoinPath`; `events` is what the
`select` receives, in order. `time.NewTicker` panics on a non-positive duration. -/
def Client.Poll (urlJoinPath : String → String → Except Error String) (c : Client) (g : Globals)
    (events : List SelectEvent) (tx : transaction) (net : Net) : PollResult :=
  let s := c.setPollingOptions g
  if tx.hash = "" then
    { exit := Exit.returned (some Error.ErrHashNotFound), tx := tx, net := net, c := s.1, g := s.2 }
  else
    match urlJoinPath s.1.BasePollingUrl tx.hash with
    | Except.error err =>
      { exit := Exit.returned (some err), tx := tx, net := net, c := s.1, g := s.2 }
    | Except.ok url =>
      match s.1.deref s.2 with
      | none => { exit := Exit.panicked, tx := tx, net := net, c := s.1, g := s.2 }
      | some o =>
        if o.Interval ≤ 0 then
          { exit := Exit.panicked, tx := tx, net := net, c := s.1, g := s.2 }
        else
          let r := s.1.pollLoop s.2 url none tx net events
          { exit := r.exit, tx := r.tx, net := r.net, c := s.1, g := s.2 }

/-! ## Vocabulary of the statements -/

/-- The reply is a successful status response reporting `s`: the transport delivered a response,
its status code is 200 and its body decodes to the `tx_status` value `s`. -/
def reports (reply : Reply) (s : TransactionStatus) : Prop :=
  match reply with
  | Except.error _ => False
  | Except.ok res => res.StatusCode = StatusOK ∧ res.Body.decode = Except.ok s

instance reportsDecidable (reply : Reply) (s : TransactionStatus) : Decidable (reports reply s) :=
  match reply with
  | Except.error _ => isFalse (fun h => h)
  | Except.ok res =>
    inferInstanceAs (Decidable (res.StatusCode = StatusOK ∧ res.Body.decode = Except.ok s))

/-- The reply is a failed status query with error `e`: the transport failed with `e`, or the
response's status code is not 200 and `e` is `ErrNotSuccessStatus`, or the status code is 200
and decoding the body failed with `e`. -/
def failsWith (reply : Reply) (e : Error) : Prop :=
  match reply with
  | Except.error err => err = e
  | Except.ok res =>
    (res.StatusCode ≠ StatusOK ∧ e = Error.ErrNotSuccessStatus) ∨
    (res.StatusCode = StatusOK ∧ res.Body.decode = Except.error e)

instance failsWithDecidable (reply : Reply) (e : Error) : Decidable (failsWith reply e) :=
  match reply with
  | Except.error err => inferInstanceAs (Decidable (err = e))
  | Except.ok res =>
    inferInstanceAs (Decidable ((res.StatusCode ≠ StatusOK ∧ e = Error.ErrNotSuccessStatus) ∨
      (res.StatusCode = StatusOK ∧ res.Body.decode = Except.error e)))

/-- The status a transaction holds after the statuses `observed` were assigned in order,
starting from `before`: the last of them, or `before` if there is none. -/
def lastObserved (before : TransactionStatus) (observed : List TransactionStatus) :
    TransactionStatus :=
  observed.getLast?.getD before

/-- The requests `n` status queries to `url` add to the log. -/
def queries (url : String) (n : Nat) : List Request :=
  List.replicate n (Request.get url)

/-- The options a call of `Poll` works with: what `c.PollingOptions` points to once
`setPollingOptions` has run (`none` for a nil pointer). -/
def Client.resolved (c : Client) (g : Globals) : Option TransactionClient.PollingOptions :=
  (c.setPollingOptions g).1.deref (c.setPollingOptions g).2

/-! ## Sequences of calls -/

/-- The five status constants of `transaction.go`. -/
def enumerated : List TransactionStatus :=
  [statusInit, StatusPending, StatusConfirm, StatusFailed, StatusDNE]

/-- The edges of the state machine of the specification: INIT to PENDING, and PENDING to
PENDING, CONFIRMED, FAILED or DNE. -/
def legalEdge (a b : TransactionStatus) : Prop :=
  (a = statusInit ∧ b = StatusPending) ∨
  (a = StatusPending ∧
    (b = StatusPending ∨ b = StatusConfirm ∨ b = StatusFailed ∨ b = StatusDNE))

instance legalEdgeDecidable (a b : TransactionStatus) : Decidable (legalEdge a b) :=
  inferInstanceAs (Decidable ((a = statusInit ∧ b = StatusPending) ∨
    (a = StatusPending ∧
      (b = StatusPending ∨ b = StatusConfirm ∨ b = StatusFailed ∨ b = StatusDNE))))

/-- The status a reply reports, when it is a successful status response (transport without
error, status code 200, decodable body). -/
def reportedStatus (reply : Reply) : Option TransactionStatus :=
  match reply with
  | Except.error _ => none
  | Except.ok res =>
    if res.StatusCode = StatusOK then
      match res.Body.decode with
      | Except.error _ => none
      | Except.ok s => some s
    else none

/-- The statuses the remote reports on the ticks of a schedule, in order. -/
def eventStatuses : List SelectEvent → List TransactionStatus
  | [] => []
  | SelectEvent.done :: rest => eventStatuses rest
  | SelectEvent.tick reply :: rest =>
    match reportedStatus reply with
    | none => eventStatuses rest
    | some s => s :: eventStatuses rest

/-- One call on a transaction: `Broadcast` or `Poll`, with the client it is called on and what
the environment delivers during the call. -/
inductive Op where
  | broadcast (c : Client) (reply : Reply)
  | poll (urlJoinPath : String → String → Except Error String) (c : Client)
      (events : List SelectEvent)

/-- The statuses the remote reports during a call. -/
def Op.reported : Op → List TransactionStatus
  | Op.broadcast _ _ => []
  | Op.poll _ _ events => eventStatuses events

/-- What a sequence of calls acts on: the transaction, the package default, the request log. -/
structure State where
  tx : transaction
  g : Globals
  net : Net

/-- The state a call leaves, however the call ends. -/
def Op.apply (st : State) : Op → State
  | Op.broadcast c reply =>
    { tx := (c.Broadcast st.tx st.net reply).tx, g := st.g,
      net := (c.Broadcast st.tx st.net reply).net }
  | Op.poll urlJoinPath c events =>
    { tx := (c.Poll urlJoinPath st.g events st.tx st.net).tx,
      g := (c.Poll urlJoinPath st.g events st.tx st.net).g,
      net := (c.Poll urlJoinPath st.g events st.tx st.net).net }

/-- The state after a sequence of calls. -/
def run : State → List Op → State
  | st, [] => st
  | st, op :: ops => run (op.apply st) ops

/-! ## Writes of a caller -/

/-- The assignment `c.Interval = v` in a caller: `Interval` is a field of the struct the embedded
pointer `c.PollingOptions` points to, so the write goes to that struct (on a nil pointer the
assignment panics and nothing is written). -/
def Client.setInterval (c : Client) (g : Globals) (v : Int) : Client × Globals :=
  match c.deref g with
  | none => (c, g)
  | some o => c.assign g { o with Interval := v }

/-- The assignment `c.Handler = h` in a caller, `none` being `nil`. -/
def Client.setHandler (c : Client) (g : Globals) (h : Option PollingHandler) :
    Client × Globals :=
  match c.deref g with
  | none => (c, g)
  | some o => c.assign g { o with Handler := h }

/-! ## Sample values -/

/-- A joiner that succeeds on every input. -/
def sampleJoin : String → String → Except Error String :=
  fun base elem => Except.ok (base ++ "/" ++ elem)

/-- The client of `example/main.go`, with shorter URLs: an interval of one second, no handler. -/
def sampleClient : Client :=
  { BroadcastUrl := "node/broadcast", BasePollingUrl := "node/check",
    PollingOptions := OptionsPtr.owned { Interval := Second, Handler := none } }

/-- A client built as a bare struct literal: its options pointer is nil. -/
def sampleBareClient : Client :=
  { BroadcastUrl := "node/broadcast", BasePollingUrl := "node/check",
    PollingOptions := OptionsPtr.nil }

/-- A handler that stops at the first status. -/
def stopHandler : PollingHandler := fun _ => false

/-- A client whose options set a handler and leave the interval at zero. -/
def sampleStopClient : Client :=
  { BroadcastUrl := "node/broadcast", BasePollingUrl := "node/check",
    PollingOptions := OptionsPtr.owned { Interval := 0, Handler := some stopHandler } }

/-- The transaction `NewTransaction "ETH" 4500 1709738070` returns. -/
def sampleFresh : transaction :=
  { Symbol := "ETH", Price := 4500, Timestamp := 1709738070, hash := "", status := statusInit }

/-- The state before the first call on `sampleFresh`. -/
def sampleStart : State :=
  { tx := sampleFresh, g := Globals.declared, net := { sent := [] } }

/-- A successful broadcast exchange assigning the hash `h`. -/
def hashReply (h : String) : Reply :=
  Except.ok { StatusCode := 200, Body := Body.decoded (some h) }

/-- A `Broadcast` on `sampleClient` that the endpoint answers with the hash "abc123". -/
def sampleBroadcast : Op :=
  Op.broadcast sampleClient (hashReply "abc123")

/-- A transaction after a successful broadcast. -/
def samplePending : transaction :=
  { Symbol := "ETH", Price := 4500, Timestamp := 1709738070, hash := "abc123",
    status := StatusPending }

/-- A response with status code 200 whose body carries the status `s`. -/
def statusReply (s : TransactionStatus) : Reply :=
  Except.ok { StatusCode := 200, Body := Body.decoded (some s) }

/-- A `Poll` on `sampleClient` during which the remote reports `statuses` on successive ticks and
the context is cancelled afterwards. -/
def samplePoll (statuses : List TransactionStatus) : Op :=
  Op.poll sampleJoin sampleClient
    (statuses.map (fun s => SelectEvent.tick (statusReply s)) ++ [SelectEvent.done])

/-- A transaction with a hash whose status is the terminal status CONFIRMED. -/
def sampleConfirmed : transaction :=
  { Symbol := "ETH", Price := 4500, Timestamp := 1709738070, hash := "abc123",
    status := StatusConfirm }

/-- A client whose options carry a negative interval. -/
def sampleNegativeClient : Client :=
  { BroadcastUrl := "node/broadcast", BasePollingUrl := "node/check",
    PollingOptions := OptionsPtr.owned { Interval := -1, Handler := none } }

/-- A response with status code 200 whose body decodes but has no `tx_status` key. -/
def emptyReply : Reply :=
  Except.ok { StatusCode := 200, Body := Body.decoded none }

/-- The client and the package default after `c := NewClient("node/broadcast", "node/check")`
and `c.Interval = 0`. -/
def sampleZeroed : Client × Globals :=
  (NewClient "node/broadcast" "node/check").setInterval Globals.declared 0

/-- The client and the package default after `c := NewClient("node/broadcast", "node/check")`
and `c.Handler = nil`. -/
def sampleCleared : Client × Globals :=
  (NewClient "node/broadcast" "node/check").setHandler Globals.declared none

/-- The client and the package default after `c := NewClient("node/broadcast", "node/check")`
and `c.Interval = time.Second`. -/
def sampleCustomized : Client × Globals :=
  (NewClient "node/broadcast" "node/check").setInterval Globals.declared Second

/-! ## Auxiliary facts -/

theorem makeReq_of_reports (net : Net) (url : String) (reply : Reply) (s : TransactionStatus)
    (h : reports reply s) :
    makeReq net url reply = (Except.ok s, { sent := net.sent ++ [Request.get url] }) := by
  cases reply with
  | error e => exact absurd h (by simp [reports])
  | ok res =>
    obtain ⟨hcode, hdec⟩ := h
    simp [makeReq, httpGet, hcode, hdec]

theorem makeReq_of_failsWith (net : Net) (url : String) (reply : Reply) (e : Error)
    (h : failsWith reply e) :
    makeReq net url reply = (Except.error e, { sent := net.sent ++ [Request.get url] }) := by
  cases reply with
  | error err =>
    have he : err = e := h
    simp [makeReq, httpGet, he]
  | ok res =>
    rcases h with ⟨hcode, he⟩ | ⟨hcode, hdec⟩
    · simp [makeReq, httpGet, hcode, he]
    · simp [makeReq, httpGet, hcode, hdec]

/-- Every reply is a successful status response or a failed query. -/
theorem reports_or_failsWith (reply : Reply) :
    (∃ s, reports reply s) ∨ (∃ e, failsWith reply e) := by
  cases reply with
  | error err => exact Or.inr ⟨err, rfl⟩
  | ok res =>
    by_cases hcode : res.StatusCode = StatusOK
    · cases hdec : res.Body.decode with
      | error e => exact Or.inr ⟨e, Or.inr ⟨hcode, hdec⟩⟩
      | ok s => exact Or.inl ⟨s, hcode, hdec⟩
    · exact Or.inr ⟨Error.ErrNotSuccessStatus, Or.inl ⟨hcode, rfl⟩⟩

theorem lastObserved_nil (before : TransactionStatus) : lastObserved before [] = before := rfl

theorem lastObserved_cons (before s : TransactionStatus) (ss : List TransactionStatus) :
    lastObserved before (s :: ss) = lastObserved s ss := by
  cases ss with
  | nil => rfl
  | cons s1 rest =>
    simp only [lastObserved, List.getLast?_cons_cons]
    rw [List.getLast?_eq_getLast _ (List.cons_ne_nil s1 rest)]
    rfl

theorem queries_succ (url : String) (n : Nat) :
    queries url (n + 1) = Request.get url :: queries url n := by
  simp [queries, List.replicate_succ]

/-- The loop over a run of ticks whose queries succeed and whose statuses all satisfy the
handler: one request per tick, the status follows the reports, the loop goes on. -/
theorem pollLoop_run (c : Client) (g : Globals) (url : String) (o : PollingOptions)
    (p : PollingHandler) (hderef : c.deref g = some o) (hp : o.Handler = some p)
    (replies : List Reply) (statuses : List TransactionStatus)
    (hrep : List.Forall₂ reports replies statuses) :
    (∀ s ∈ statuses, p s = true) →
    ∀ (tx : transaction) (net : Net) (rest : List SelectEvent),
      c.pollLoop g url none tx net (replies.map SelectEvent.tick ++ rest) =
        c.pollLoop g url none { tx with status := lastObserved tx.status statuses }
          { sent := net.sent ++ queries url statuses.length } rest := by
  induction hrep with
  | nil =>
    intro _ tx net rest
    simp [lastObserved_nil, queries]
  | @cons r s rs ss hr _ ih =>
    intro hall tx net rest
    have hs : p s = true := hall s (List.mem_cons_self s ss)
    have hall1 : ∀ s1 ∈ ss, p s1 = true := fun s1 h1 => hall s1 (List.mem_cons_of_mem s h1)
    have hstep : c.pollLoop g url none tx net (SelectEvent.tick r :: (rs.map SelectEvent.tick ++ rest)) =
        c.pollLoop g url none { tx with status := s } { sent := net.sent ++ [Request.get url] }
          (rs.map SelectEvent.tick ++ rest) := by
      rw [Client.pollLoop]
      simp [makeReq_of_reports net url r s hr, hderef, hp, hs]
    rw [List.map_cons, List.cons_append, hstep, ih hall1]
    simp [lastObserved_cons, queries_succ, List.length_cons]


theorem statusPending_ne_statusInit : StatusPending ≠ statusInit := by decide

/-- The four ways `Broadcast` leaves a transaction whose status is INIT. -/
theorem Broadcast_init_cases (c : Client) (tx : transaction) (net : Net) (reply : Reply)
    (hinit : tx.status = statusInit) :
    ((c.Broadcast tx net reply).tx = tx ∧ ∃ err, (c.Broadcast tx net reply).err = some err) ∨
    ((c.Broadcast tx net reply).err = none ∧
      (c.Broadcast tx net reply).tx.status = StatusPending ∧
      (c.Broadcast tx net reply).tx.hash ≠ "") := by
  unfold Client.Broadcast jsonMarshal httpPost
  simp only [hinit, ne_eq, not_true_eq_false, if_false]
  cases reply with
  | error e => exact Or.inl ⟨rfl, e, rfl⟩
  | ok res =>
    by_cases hcode : res.StatusCode = StatusOK
    · cases hdec : res.Body.decode with
      | error e => simp [hcode, hdec]
      | ok h =>
        by_cases hh : h = ""
        · simp [hcode, hdec, hh]
        · simp [hcode, hdec, hh]
    · simp [hcode]

theorem queries_snoc (url : String) (n : Nat) :
    queries url n ++ [Request.get url] = queries url (n + 1) := by
  simp [queries, List.replicate_succ']

theorem assign_BasePollingUrl (c : Client) (g : Globals) (o : PollingOptions) :
    (c.assign g o).1.BasePollingUrl = c.BasePollingUrl := by
  unfold Client.assign
  cases c.PollingOptions <;> rfl

theorem setPollingOptions_BasePollingUrl (c : Client) (g : Globals) :
    (c.setPollingOptions g).1.BasePollingUrl = c.BasePollingUrl := by
  unfold Client.setPollingOptions
  cases hd : c.deref g with
  | none => rfl
  | some o =>
    by_cases hi : o.Interval = 0
    · simp only [hi, if_true]
      split
      · exact assign_BasePollingUrl c g _
      · split
        · rw [assign_BasePollingUrl, assign_BasePollingUrl]
        · exact assign_BasePollingUrl c g _
    · simp only [hi, if_false, hd]
      split
      · exact assign_BasePollingUrl c g _
      · rfl

/-- With a non-empty hash, a base URL that joins with it and a positive resolved interval,
`Poll` is its loop, run on the resolved client. -/
theorem Poll_eq_pollLoop (urlJoinPath : String → String → Except Error String) (c : Client)
    (g : Globals) (events : List SelectEvent) (tx : transaction) (net : Net) (url : String)
    (o : PollingOptions) (hhash : tx.hash ≠ "")
    (hurl : urlJoinPath c.BasePollingUrl tx.hash = Except.ok url)
    (hres : c.resolved g = some o) (hint : 0 < o.Interval) :
    (c.Poll urlJoinPath g events tx net).exit =
        ((c.setPollingOptions g).1.pollLoop (c.setPollingOptions g).2 url none tx net events).exit ∧
    (c.Poll urlJoinPath g events tx net).tx =
        ((c.setPollingOptions g).1.pollLoop (c.setPollingOptions g).2 url none tx net events).tx ∧
    (c.Poll urlJoinPath g events tx net).net =
        ((c.setPollingOptions g).1.pollLoop (c.setPollingOptions g).2 url none tx net events).net := by
  unfold Client.resolved at hres
  have hint1 : ¬ o.Interval ≤ 0 := not_le.mpr hint
  simp [Client.Poll, hhash, setPollingOptions_BasePollingUrl, hurl, hres, hint1]

theorem pollLoop_done (c : Client) (g : Globals) (url : String) (err : Option Error)
    (tx : transaction) (net : Net) (rest : List SelectEvent) :
    c.pollLoop g url err tx net (SelectEvent.done :: rest) =
      { exit := Exit.returned err, tx := tx, net := net } := by
  rw [Client.pollLoop]

theorem pollLoop_stop (c : Client) (g : Globals) (url : String) (o : PollingOptions)
    (p : PollingHandler) (hderef : c.deref g = some o) (hp : o.Handler = some p)
    (err : Option Error) (tx : transaction) (net : Net) (reply : Reply) (s : TransactionStatus)
    (rest : List SelectEvent) (hr : reports reply s) (hstop : p s = false) :
    c.pollLoop g url err tx net (SelectEvent.tick reply :: rest) =
      { exit := Exit.returned none, tx := { tx with status := s },
        net := { sent := net.sent ++ [Request.get url] } } := by
  rw [Client.pollLoop]
  simp [makeReq_of_reports net url reply s hr, hderef, hp, hstop]

theorem pollLoop_fail (c : Client) (g : Globals) (url : String) (err : Option Error)
    (tx : transaction) (net : Net) (reply : Reply) (e : Error) (rest : List SelectEvent)
    (hf : failsWith reply e) :
    c.pollLoop g url err tx net (SelectEvent.tick reply :: rest) =
      { exit := Exit.returned (some e), tx := tx,
        net := { sent := net.sent ++ [Request.get url] } } := by
  rw [Client.pollLoop]
  simp [makeReq_of_failsWith net url reply e hf]

theorem setPollingOptions_nil (bu pu : String) (g : Globals) :
    Client.setPollingOptions
        { BroadcastUrl := bu, BasePollingUrl := pu, PollingOptions := OptionsPtr.nil } g =
      ({ BroadcastUrl := bu, BasePollingUrl := pu, PollingOptions := OptionsPtr.shared }, g) := by
  simp [Client.setPollingOptions, Client.deref]

theorem setPollingOptions_shared (bu pu : String) (g : Globals) :
    Client.setPollingOptions
        { BroadcastUrl := bu, BasePollingUrl := pu, PollingOptions := OptionsPtr.shared } g =
      ({ BroadcastUrl := bu, BasePollingUrl := pu, PollingOptions := OptionsPtr.shared }, g) := by
  obtain ⟨⟨i, h⟩⟩ := g
  by_cases hi : i = 0 <;> cases h <;>
    simp [Client.setPollingOptions, Client.deref, Client.assign, hi]

theorem setPollingOptions_owned (bu pu : String) (g : Globals) (o : PollingOptions) :
    Client.setPollingOptions
        { BroadcastUrl := bu, BasePollingUrl := pu, PollingOptions := OptionsPtr.owned o } g =
      ({ BroadcastUrl := bu, BasePollingUrl := pu,
         PollingOptions := OptionsPtr.owned
          { Interval := if o.Interval = 0 then g.defaultPollingOptions.Interval else o.Interval,
            Handler := match o.Handler with
              | none => g.defaultPollingOptions.Handler
              | some h => some h } }, g) := by
  obtain ⟨i, h⟩ := o
  by_cases hi : i = 0 <;> cases h <;>
    simp [Client.setPollingOptions, Client.deref, Client.assign, hi]

theorem resolved_nil (bu pu : String) (g : Globals) :
    Client.resolved
        { BroadcastUrl := bu, BasePollingUrl := pu, PollingOptions := OptionsPtr.nil } g =
      some g.defaultPollingOptions := by
  simp [Client.resolved, setPollingOptions_nil, Client.deref]

theorem resolved_shared (bu pu : String) (g : Globals) :
    Client.resolved
        { BroadcastUrl := bu, BasePollingUrl := pu, PollingOptions := OptionsPtr.shared } g =
      some g.defaultPollingOptions := by
  simp [Client.resolved, setPollingOptions_shared, Client.deref]

theorem resolved_owned (bu pu : String) (g : Globals) (o : PollingOptions) :
    Client.resolved
        { BroadcastUrl := bu, BasePollingUrl := pu, PollingOptions := OptionsPtr.owned o } g =
      some
        { Interval := if o.Interval = 0 then g.defaultPollingOptions.Interval else o.Interval,
          Handler := match o.Handler with
            | none => g.defaultPollingOptions.Handler
            | some h => some h } := by
  simp [Client.resolved, setPollingOptions_owned, Client.deref]

/-- Where `Poll` leaves the client and the package default: where `setPollingOptions` put them. -/
theorem Poll_client_state (c : Client) (g : Globals)
    (urlJoinPath : String → String → Except Error String) (events : List SelectEvent)
    (tx : transaction) (net : Net) :
    ((c.Poll urlJoinPath g events tx net).c, (c.Poll urlJoinPath g events tx net).g) =
      c.setPollingOptions g := by
  unfold Client.Poll
  simp only []
  repeat' split
  all_goals rfl

/-! ### What a call does to the transaction -/

theorem reportedStatus_of_reports (reply : Reply) (s : TransactionStatus)
    (h : reports reply s) : reportedStatus reply = some s := by
  cases reply with
  | error e => exact absurd h (by simp [reports])
  | ok res =>
    obtain ⟨hcode, hdec⟩ := h
    simp [reportedStatus, hcode, hdec]

theorem reportedStatus_of_failsWith (reply : Reply) (e : Error)
    (h : failsWith reply e) : reportedStatus reply = none := by
  cases reply with
  | error err => rfl
  | ok res =>
    rcases h with ⟨hcode, _⟩ | ⟨hcode, hdec⟩
    · simp [reportedStatus, hcode]
    · simp [reportedStatus, hcode, hdec]

/-- The loop of `Poll` writes only the status, and only statuses the remote reported on the
ticks of the schedule. -/
theorem pollLoop_frame (c : Client) (g : Globals) (url : String) :
    ∀ (events : List SelectEvent) (err : Option Error) (tx : transaction) (net : Net),
      (c.pollLoop g url err tx net events).tx.Symbol = tx.Symbol ∧
      (c.pollLoop g url err tx net events).tx.Price = tx.Price ∧
      (c.pollLoop g url err tx net events).tx.Timestamp = tx.Timestamp ∧
      (c.pollLoop g url err tx net events).tx.hash = tx.hash ∧
      ((c.pollLoop g url err tx net events).tx.status = tx.status ∨
        (c.pollLoop g url err tx net events).tx.status ∈ eventStatuses events) := by
  intro events
  induction events with
  | nil =>
    intro err tx net
    rw [Client.pollLoop]
    exact ⟨rfl, rfl, rfl, rfl, Or.inl rfl⟩
  | cons ev rest ih =>
    intro err tx net
    cases ev with
    | done =>
      rw [pollLoop_done]
      exact ⟨rfl, rfl, rfl, rfl, Or.inl rfl⟩
    | tick reply =>
      rcases reports_or_failsWith reply with ⟨s, hs⟩ | ⟨e, he⟩
      · have hrs : eventStatuses (SelectEvent.tick reply :: rest) = s :: eventStatuses rest := by
          simp [eventStatuses, reportedStatus_of_reports reply s hs]
        rw [hrs, Client.pollLoop]
        simp only [makeReq_of_reports net url reply s hs]
        cases hh : (c.deref g).bind (fun o => o.Handler) with
        | none => exact ⟨rfl, rfl, rfl, rfl, Or.inr (List.mem_cons_self s _)⟩
        | some handler =>
          by_cases hstop : handler s = true
          · simp only [hstop, Bool.not_true, Bool.false_eq_true, if_false]
            obtain ⟨h1, h2, h3, h4, h5⟩ := ih none { tx with status := s }
              { sent := net.sent ++ [Request.get url] }
            refine ⟨h1, h2, h3, h4, Or.inr ?_⟩
            rcases h5 with h5 | h5
            · rw [h5]
              exact List.mem_cons_self s _
            · exact List.mem_cons_of_mem s h5
          · have hstop1 : handler s = false := by simpa using hstop
            simp [hstop1]
      · rw [pollLoop_fail c g url err tx net reply e rest he]
        exact ⟨rfl, rfl, rfl, rfl, Or.inl rfl⟩

/-- A call of `Poll` writes only the status, and only statuses the remote reported. -/
theorem Poll_frame (urlJoinPath : String → String → Except Error String) (c : Client)
    (g : Globals) (events : List SelectEvent) (tx : transaction) (net : Net) :
    (c.Poll urlJoinPath g events tx net).tx.Symbol = tx.Symbol ∧
    (c.Poll urlJoinPath g events tx net).tx.Price = tx.Price ∧
    (c.Poll urlJoinPath g events tx net).tx.Timestamp = tx.Timestamp ∧
    (c.Poll urlJoinPath g events tx net).tx.hash = tx.hash ∧
    ((c.Poll urlJoinPath g events tx net).tx.status = tx.status ∨
      (tx.hash ≠ "" ∧ (c.Poll urlJoinPath g events tx net).tx.status ∈ eventStatuses events)) := by
  unfold Client.Poll
  simp only []
  by_cases hhash : tx.hash = ""
  · simp [hhash]
  · simp only [hhash, if_false]
    cases hj : urlJoinPath (c.setPollingOptions g).1.BasePollingUrl tx.hash with
    | error e => exact ⟨rfl, rfl, rfl, rfl, Or.inl rfl⟩
    | ok url =>
      cases hd : (c.setPollingOptions g).1.deref (c.setPollingOptions g).2 with
      | none => exact ⟨rfl, rfl, rfl, rfl, Or.inl rfl⟩
      | some o =>
        by_cases hi : o.Interval ≤ 0
        · simp [hi]
        · simp only [hi, if_false]
          obtain ⟨h1, h2, h3, h4, h5⟩ := pollLoop_frame (c.setPollingOptions g).1
            (c.setPollingOptions g).2 url events none tx net
          refine ⟨h1, h2, h3, h4, ?_⟩
          rcases h5 with h5 | h5
          · exact Or.inl h5
          · exact Or.inr ⟨hhash, h5⟩

/-- A call of `Broadcast` leaves the transaction as it was, or takes it from INIT to PENDING
with a non-empty hash and returns nil. It never writes the exported fields. -/
theorem Broadcast_frame (c : Client) (tx : transaction) (net : Net) (reply : Reply) :
    (c.Broadcast tx net reply).tx.Symbol = tx.Symbol ∧
    (c.Broadcast tx net reply).tx.Price = tx.Price ∧
    (c.Broadcast tx net reply).tx.Timestamp = tx.Timestamp ∧
    ((c.Broadcast tx net reply).tx = tx ∨
      (tx.status = statusInit ∧ (c.Broadcast tx net reply).err = none ∧
        (c.Broadcast tx net reply).tx.status = StatusPending ∧
        (c.Broadcast tx net reply).tx.hash ≠ "")) := by
  by_cases hinit : tx.status = statusInit
  · rcases Broadcast_init_cases c tx net reply hinit with ⟨hsame, _⟩ | ⟨hnone, hst, hh⟩
    · rw [hsame]
      exact ⟨rfl, rfl, rfl, Or.inl rfl⟩
    · refine ⟨?_, ?_, ?_, Or.inr ⟨hinit, hnone, hst, hh⟩⟩ <;>
      · unfold Client.Broadcast jsonMarshal httpPost
        simp only [hinit, ne_eq, not_true_eq_false, if_false]
        repeat' split
        all_goals rfl
  · have hb : c.Broadcast tx net reply =
        { err := some Error.ErrAlreadyBroadcast, tx := tx, net := net } := by
      simp [Client.Broadcast, hinit]
    rw [hb]
    exact ⟨rfl, rfl, rfl, Or.inl rfl⟩

theorem run_append (st : State) (ops1 ops2 : List Op) :
    run st (ops1 ++ ops2) = run (run st ops1) ops2 := by
  induction ops1 generalizing st with
  | nil => rfl
  | cons op rest ih => exact ih (op.apply st)

theorem transaction_eq_of_fields (a b : transaction) (h1 : a.Symbol = b.Symbol)
    (h2 : a.Price = b.Price) (h3 : a.Timestamp = b.Timestamp) (h4 : a.hash = b.hash)
    (h5 : a.status = b.status) : a = b := by
  cases a
  cases b
  simp only [transaction.mk.injEq]
  exact ⟨h1, h2, h3, h4, h5⟩

/-- The three things one call can do to the transaction: nothing; a `Broadcast` that returns
nil takes it from INIT to PENDING and gives it a hash; a `Poll` on a transaction that has a hash
sets the status to one the remote reported during the call. -/
theorem apply_cases (st : State) (op : Op) :
    (op.apply st).tx = st.tx ∨
    (st.tx.status = statusInit ∧ (op.apply st).tx.status = StatusPending ∧
      (op.apply st).tx.hash ≠ "" ∧
      ∃ (c : Client) (reply : Reply), op = Op.broadcast c reply ∧
        (c.Broadcast st.tx st.net reply).err = none) ∨
    (st.tx.hash ≠ "" ∧ (op.apply st).tx.hash = st.tx.hash ∧
      (op.apply st).tx.status ∈ op.reported ∧
      ∃ (urlJoinPath : String → String → Except Error String) (c : Client)
        (events : List SelectEvent), op = Op.poll urlJoinPath c events) := by
  cases op with
  | broadcast c reply =>
    obtain ⟨_, _, _, h⟩ := Broadcast_frame c st.tx st.net reply
    rcases h with h | ⟨hinit, hnone, hst, hh⟩
    · exact Or.inl h
    · exact Or.inr (Or.inl ⟨hinit, hst, hh, c, reply, rfl, hnone⟩)
  | poll urlJoinPath c events =>
    obtain ⟨h1, h2, h3, h4, h5⟩ := Poll_frame urlJoinPath c st.g events st.tx st.net
    rcases h5 with h5 | ⟨hhash, h5⟩
    · exact Or.inl (transaction_eq_of_fields _ _ h1 h2 h3 h4 h5)
    · exact Or.inr (Or.inr ⟨hhash, h4, h5, urlJoinPath, c, events, rfl⟩)

theorem NewTransaction_fresh (symbol : String) (price timestamp : Nat) (tx0 : transaction)
    (h : NewTransaction symbol price timestamp = Except.ok tx0) :
    tx0.hash = "" ∧ tx0.status = statusInit := by
  unfold NewTransaction at h
  simp only [] at h
  split at h
  · exact absurd h (by simp)
  · simp only [Except.ok.injEq] at h
    subst h
    exact ⟨rfl, rfl⟩

/-- A set of statuses that contains INIT, that the transaction is outside of and that the
remote never reports is never entered. -/
theorem run_status_avoids (bad : TransactionStatus → Prop) (hbad : bad statusInit)
    (ops : List Op) :
    ∀ st : State, (∀ op ∈ ops, ∀ s ∈ op.reported, ¬ bad s) → ¬ bad st.tx.status →
      ¬ bad (run st ops).tx.status := by
  induction ops with
  | nil =>
    intro st _ hst
    exact hst
  | cons op rest ih =>
    intro st hrep hst
    apply ih (op.apply st) (fun o ho => hrep o (List.mem_cons_of_mem op ho))
    rcases apply_cases st op with h | ⟨hinit, _⟩ | ⟨_, _, hmem, _⟩
    · rw [h]
      exact hst
    · exact absurd (hinit ▸ hbad) hst
    · exact hrep op (List.mem_cons_self op rest) _ hmem

/-- In every run, a transaction without a hash has status INIT, if it had at the start. -/
theorem run_hash_empty_init (ops : List Op) :
    ∀ st : State, (st.tx.hash = "" → st.tx.status = statusInit) →
      ((run st ops).tx.hash = "" → (run st ops).tx.status = statusInit) := by
  induction ops with
  | nil =>
    intro st hst
    exact hst
  | cons op rest ih =>
    intro st hst
    apply ih (op.apply st)
    rcases apply_cases st op with h | ⟨_, _, hh, _⟩ | ⟨hh, heq, _, _⟩
    · rw [h]
      exact hst
    · intro h0
      exact absurd h0 hh
    · intro h0
      exact absurd (heq ▸ h0) hh

/-- While the remote does not report INIT, a transaction with status INIT has no hash, if that
held at the start. -/
theorem run_init_hash_empty (ops : List Op) :
    ∀ st : State, (∀ op ∈ ops, statusInit ∉ op.reported) →
      (st.tx.status = statusInit → st.tx.hash = "") →
      ((run st ops).tx.status = statusInit → (run st ops).tx.hash = "") := by
  induction ops with
  | nil =>
    intro st _ hst
    exact hst
  | cons op rest ih =>
    intro st hrep hst
    apply ih (op.apply st) (fun o ho => hrep o (List.mem_cons_of_mem op ho))
    rcases apply_cases st op with h | ⟨_, hp, _, _⟩ | ⟨_, _, hmem, _⟩
    · rw [h]
      exact hst
    · intro h0
      rw [hp] at h0
      exact absurd h0 statusPending_ne_statusInit
    · intro h0
      rw [h0] at hmem
      exact absurd hmem (hrep op (List.mem_cons_self op rest))

/-- While the remote does not report INIT, a hash that is set stays as it is. -/
theorem run_hash_fixed (ops : List Op) :
    ∀ st : State, (∀ op ∈ ops, statusInit ∉ op.reported) →
      (st.tx.status = statusInit → st.tx.hash = "") → st.tx.hash ≠ "" →
      (run st ops).tx.hash = st.tx.hash := by
  induction ops with
  | nil =>
    intro st _ _ _
    rfl
  | cons op rest ih =>
    intro st hrep hinv hne
    have hrest : ∀ o ∈ rest, statusInit ∉ o.reported :=
      fun o ho => hrep o (List.mem_cons_of_mem op ho)
    have hstep : (op.apply st).tx.hash = st.tx.hash ∧
        ((op.apply st).tx.status = statusInit → (op.apply st).tx.hash = "") := by
      rcases apply_cases st op with h | ⟨hinit, _⟩ | ⟨_, heq, hmem, _⟩
      · rw [h]
        exact ⟨rfl, hinv⟩
      · exact absurd (hinv hinit) hne
      · refine ⟨heq, ?_⟩
        intro h0
        rw [h0] at hmem
        exact absurd hmem (hrep op (List.mem_cons_self op rest))
    have hmain := ih (op.apply st) hrest hstep.2 (hstep.1 ▸ hne)
    show (run (op.apply st) rest).tx.hash = st.tx.hash
    rw [hmain, hstep.1]

/-- The loop of `Poll` does not panic when the client has a handler. -/
theorem pollLoop_no_panic (c : Client) (g : Globals) (url : String) (handler : PollingHandler)
    (hh : (c.deref g).bind (fun o => o.Handler) = some handler) :
    ∀ (events : List SelectEvent) (err : Option Error) (tx : transaction) (net : Net),
      (c.pollLoop g url err tx net events).exit ≠ Exit.panicked := by
  intro events
  induction events with
  | nil =>
    intro err tx net
    rw [Client.pollLoop]
    simp
  | cons ev rest ih =>
    intro err tx net
    cases ev with
    | done =>
      rw [pollLoop_done]
      simp
    | tick reply =>
      rcases reports_or_failsWith reply with ⟨s, hs⟩ | ⟨e, he⟩
      · rw [Client.pollLoop]
        simp only [makeReq_of_reports net url reply s hs, hh]
        by_cases hstop : handler s = true
        · simp only [hstop, Bool.not_true, Bool.false_eq_true, if_false]
          exact ih none _ _
        · have hstop1 : handler s = false := by simpa using hstop
          simp [hstop1]
      · rw [pollLoop_fail c g url err tx net reply e rest he]
        simp

/-- While the remote reports only the five status constants, the status is one of them, if it
was at the start. -/
theorem run_status_enumerated (ops : List Op) :
    ∀ st : State, (∀ op ∈ ops, ∀ s ∈ op.reported, s ∈ enumerated) →
      st.tx.status ∈ enumerated → (run st ops).tx.status ∈ enumerated := by
  induction ops with
  | nil =>
    intro st _ hst
    exact hst
  | cons op rest ih =>
    intro st hrep hst
    apply ih (op.apply st) (fun o ho => hrep o (List.mem_cons_of_mem op ho))
    rcases apply_cases st op with h | ⟨_, hp, _⟩ | ⟨_, _, hmem, _⟩
    · rw [h]
      exact hst
    · rw [hp]
      decide
    · exact hrep op (List.mem_cons_self op rest) _ hmem

/-- While the package default holds its declared value, the options `Poll` works with carry a
handler. -/
theorem resolved_handler_some (c : Client) (g : Globals)
    (hg : g.defaultPollingOptions = defaultPollingOptions) :
    ∃ handler : PollingHandler, (c.resolved g).bind (fun r => r.Handler) = some handler := by
  obtain ⟨bu, pu, ptr⟩ := c
  cases ptr with
  | nil =>
    rw [resolved_nil, hg]
    exact ⟨defaultHandler, rfl⟩
  | shared =>
    rw [resolved_shared, hg]
    exact ⟨defaultHandler, rfl⟩
  | owned o =>
    rw [resolved_owned, hg]
    cases hh : o.Handler with
    | none => exact ⟨defaultHandler, rfl⟩
    | some h => exact ⟨h, rfl⟩

/-- While the package default holds its declared value, a configured interval that is not
negative resolves to a positive one. -/
theorem resolved_interval_pos (c : Client) (g : Globals)
    (hg : g.defaultPollingOptions = defaultPollingOptions)
    (hcfg : ∀ o : PollingOptions, c.deref g = some o → 0 ≤ o.Interval) :
    ∃ r : PollingOptions, c.resolved g = some r ∧ 0 < r.Interval := by
  have hfive : (0 : Int) < defaultPollingOptions.Interval := by decide
  obtain ⟨bu, pu, ptr⟩ := c
  cases ptr with
  | nil =>
    rw [resolved_nil, hg]
    exact ⟨defaultPollingOptions, rfl, hfive⟩
  | shared =>
    rw [resolved_shared, hg]
    exact ⟨defaultPollingOptions, rfl, hfive⟩
  | owned o =>
    rw [resolved_owned, hg]
    refine ⟨_, rfl, ?_⟩
    have hnn : 0 ≤ o.Interval := hcfg o rfl
    by_cases hi : o.Interval = 0
    · simp only [hi, if_true]
      exact hfive
    · simp only [hi, if_false]
      omega

/-- Configuration resolution, as far as it holds. For every client and every state of the
package default: an interval that was configured non-zero is the resolved interval, and a handler that was
configured is the resolved handler (neither is replaced). While the package default holds the
value it is declared with, the resolved interval is 5 seconds if the options were absent or the
interval was zero, and the resolved handler is the default handler if the options were absent or
the handler was unset. Every call of `Poll` leaves client and package default in the state
`setPollingOptions` produces. -/
theorem setPollingOptions_resolution (c : Client) (g : Globals) :
    (∀ o : PollingOptions, c.deref g = some o → o.Interval ≠ 0 →
      (c.resolved g).map (fun r => r.Interval) = some o.Interval) ∧
    (∀ (o : PollingOptions) (h : PollingHandler), c.deref g = some o → o.Handler = some h →
      (c.resolved g).bind (fun r => r.Handler) = some h) ∧
    (g.defaultPollingOptions = defaultPollingOptions →
      (c.deref g = none ∨ (∃ o : PollingOptions, c.deref g = some o ∧ o.Interval = 0) →
        (c.resolved g).map (fun r => r.Interval) = some (5 * Second)) ∧
      (c.deref g = none ∨ (∃ o : PollingOptions, c.deref g = some o ∧ o.Handler = none) →
        (c.resolved g).bind (fun r => r.Handler) = some defaultHandler)) ∧
    (∀ (urlJoinPath : String → String → Except Error String) (events : List SelectEvent)
        (tx : transaction) (net : Net),
      ((c.Poll urlJoinPath g events tx net).c, (c.Poll urlJoinPath g events tx net).g) =
        c.setPollingOptions g) := by
  refine ⟨?_, ?_, ?_, Poll_client_state c g⟩ <;> revert c
  all_goals intro c
  all_goals obtain ⟨bu, pu, ptr⟩ := c
  all_goals cases ptr
  all_goals first | rw [resolved_nil] | rw [resolved_shared] | rw [resolved_owned]
  · intro o ho
    simp [Client.deref] at ho
  · intro o ho _
    simp only [Client.deref, Option.some.injEq] at ho
    simp [ho]
  · intro o ho hi
    simp only [Client.deref, Option.some.injEq] at ho
    subst ho
    simp [hi]
  · intro o h ho
    simp [Client.deref] at ho
  · intro o h ho hh
    simp only [Client.deref, Option.some.injEq] at ho
    simp [ho, hh]
  · intro o h ho hh
    simp only [Client.deref, Option.some.injEq] at ho
    subst ho
    simp [hh]
  · intro hd
    simp [hd, defaultPollingOptions]
  · intro hd
    simp [hd, defaultPollingOptions]
  · intro hd
    constructor
    · rintro (hn | ⟨o, ho, hi⟩)
      · simp [Client.deref] at hn
      · simp only [Client.deref, Option.some.injEq] at ho
        subst ho
        simp [hi, hd, defaultPollingOptions]
    · rintro (hn | ⟨o, ho, hh⟩)
      · simp [Client.deref] at hn
      · simp only [Client.deref, Option.some.injEq] at ho
        subst ho
        simp [hh, hd, defaultPollingOptions]

theorem setPollingOptions_resolution_witness :
    (sampleClient.resolved Globals.declared).map (fun r => r.Interval) = some Second ∧
    (sampleClient.resolved Globals.declared).bind (fun r => r.Handler) = some defaultHandler ∧
    (sampleBareClient.resolved Globals.declared).map (fun r => r.Interval) = some (5 * Second) ∧
    (sampleStopClient.resolved Globals.declared).map (fun r => r.Interval) = some (5 * Second) ∧
    (sampleStopClient.resolved Globals.declared).bind (fun r => r.Handler) = some stopHandler :=
  ⟨(setPollingOptions_resolution sampleClient Globals.declared).1
      { Interval := Second, Handler := none } rfl (by decide),
   ((setPollingOptions_resolution sampleClient Globals.declared).2.2.1 rfl).2
      (Or.inr ⟨{ Interval := Second, Handler := none }, rfl, rfl⟩),
   ((setPollingOptions_resolution sampleBareClient Globals.declared).2.2.1 rfl).1 (Or.inl rfl),
   ((setPollingOptions_resolution sampleStopClient Globals.declared).2.2.1 rfl).1
      (Or.inr ⟨{ Interval := 0, Handler := some stopHandler }, rfl, rfl⟩),
   (setPollingOptions_resolution sampleStopClient Globals.declared).2.1
      { Interval := 0, Handler := some stopHandler } stopHandler rfl rfl⟩

/-! ## The claims -/

/-- C1: for every symbol, price and timestamp, if the symbol is non-empty and price and
timestamp are non-zero then `NewTransaction` returns, without error, the transaction with these
three values, status INIT and empty hash; if the symbol is empty or the price or the timestamp
is zero it returns an error and no transaction. -/
theorem NewTransaction_spec (symbol : String) (price timestamp : Nat) :
    (symbol ≠ "" ∧ price ≠ 0 ∧ timestamp ≠ 0 →
      NewTransaction symbol price timestamp =
        Except.ok { Symbol := symbol, Price := price, Timestamp := timestamp,
                    hash := "", status := statusInit }) ∧
    (symbol = "" ∨ price = 0 ∨ timestamp = 0 →
      ∃ err, NewTransaction symbol price timestamp = Except.error err) := by
  constructor
  · rintro ⟨hs, hp, ht⟩
    simp [NewTransaction, validateStruct, hs, hp, ht]
  · intro h
    have hfail : ((if symbol = "" then ["Symbol"] else []) ++
        (if price = 0 then ["Price"] else []) ++
        (if timestamp = 0 then ["Timestamp"] else [])).isEmpty = false := by
      rcases h with h | h | h <;> subst h <;> simp
    simp only [NewTransaction, validateStruct, hfail]
    exact ⟨_, rfl⟩

theorem NewTransaction_spec_witness :
    NewTransaction "ETH" 4500 1709738070 =
        Except.ok { Symbol := "ETH", Price := 4500, Timestamp := 1709738070,
                    hash := "", status := statusInit } ∧
    ∃ err, NewTransaction "ETH" 0 1709738070 = Except.error err :=
  ⟨(NewTransaction_spec "ETH" 4500 1709738070).1 (by decide),
   (NewTransaction_spec "ETH" 0 1709738070).2 (by decide)⟩

/-- C2: on a transaction whose status is INIT, when the POST succeeds at the transport level
with a response of status code 200 whose body decodes to a non-empty `tx_hash` value `h`,
`Broadcast` returns no error, the transaction's hash is `h` and its status is PENDING (the other
fields are untouched, and exactly one request, the POST, has been issued). -/
theorem Broadcast_success (c : Client) (tx : transaction) (net : Net) (res : Response)
    (h : String) (hinit : tx.status = statusInit) (hcode : res.StatusCode = StatusOK)
    (hdec : res.Body.decode = Except.ok h) (hne : h ≠ "") :
    (c.Broadcast tx net (Except.ok res)).err = none ∧
    (c.Broadcast tx net (Except.ok res)).tx.hash = h ∧
    (c.Broadcast tx net (Except.ok res)).tx.status = StatusPending ∧
    (c.Broadcast tx net (Except.ok res)).tx = { tx with hash := h, status := StatusPending } ∧
    (c.Broadcast tx net (Except.ok res)).net.sent =
      net.sent ++ [Request.post c.BroadcastUrl "application/json"
        { symbol := tx.Symbol, price := tx.Price, timestamp := tx.Timestamp }] := by
  simp [Client.Broadcast, jsonMarshal, httpPost, hinit, hcode, hdec, hne]

theorem Broadcast_success_witness :
    ((NewClient "b" "p").Broadcast
        { Symbol := "ETH", Price := 4500, Timestamp := 17, hash := "", status := statusInit }
        { sent := [] }
        (Except.ok { StatusCode := 200, Body := Body.decoded (some "abc123") })).err = none ∧
    ((NewClient "b" "p").Broadcast
        { Symbol := "ETH", Price := 4500, Timestamp := 17, hash := "", status := statusInit }
        { sent := [] }
        (Except.ok { StatusCode := 200, Body := Body.decoded (some "abc123") })).tx.hash
      = "abc123" ∧
    ((NewClient "b" "p").Broadcast
        { Symbol := "ETH", Price := 4500, Timestamp := 17, hash := "", status := statusInit }
        { sent := [] }
        (Except.ok { StatusCode := 200, Body := Body.decoded (some "abc123") })).tx.status
      = StatusPending :=
  have w := Broadcast_success (NewClient "b" "p")
    { Symbol := "ETH", Price := 4500, Timestamp := 17, hash := "", status := statusInit }
    { sent := [] } { StatusCode := 200, Body := Body.decoded (some "abc123") } "abc123"
    (by decide) (by decide) (by decide) (by decide)
  ⟨w.1, w.2.1, w.2.2.1⟩

/-- C3: on a transaction whose status is not INIT, `Broadcast` returns `ErrAlreadyBroadcast`,
issues no request (the log of requests is unchanged) and leaves the transaction as it was;
in particular this is what a `Broadcast` does on the transaction left by a `Broadcast` that
returned no error. -/
theorem Broadcast_not_init (c : Client) (tx : transaction) (net : Net) (reply : Reply) :
    (tx.status ≠ statusInit →
      c.Broadcast tx net reply = { err := some Error.ErrAlreadyBroadcast, tx := tx, net := net }) ∧
    (∀ (c0 : Client) (tx0 : transaction) (net0 : Net) (reply0 : Reply),
      tx0.status = statusInit → (c0.Broadcast tx0 net0 reply0).err = none →
      c.Broadcast (c0.Broadcast tx0 net0 reply0).tx net reply =
        { err := some Error.ErrAlreadyBroadcast, tx := (c0.Broadcast tx0 net0 reply0).tx,
          net := net }) := by
  have key : ∀ t : transaction, t.status ≠ statusInit →
      c.Broadcast t net reply = { err := some Error.ErrAlreadyBroadcast, tx := t, net := net } := by
    intro t ht
    simp [Client.Broadcast, ht]
  refine ⟨key tx, ?_⟩
  intro c0 tx0 net0 reply0 hinit hok
  apply key
  rcases Broadcast_init_cases c0 tx0 net0 reply0 hinit with ⟨_, err, herr⟩ | ⟨_, hst, _⟩
  · rw [herr] at hok
    exact absurd hok (by simp)
  · rw [hst]
    exact statusPending_ne_statusInit

theorem Broadcast_not_init_witness :
    (NewClient "b" "p").Broadcast
        { Symbol := "ETH", Price := 4500, Timestamp := 17, hash := "abc123",
          status := StatusPending }
        { sent := [] }
        (Except.ok { StatusCode := 200, Body := Body.decoded (some "def456") }) =
      { err := some Error.ErrAlreadyBroadcast,
        tx := { Symbol := "ETH", Price := 4500, Timestamp := 17, hash := "abc123",
                status := StatusPending },
        net := { sent := [] } } ∧
    (NewClient "b" "p").Broadcast
        ((NewClient "b" "p").Broadcast
          { Symbol := "ETH", Price := 4500, Timestamp := 17, hash := "", status := statusInit }
          { sent := [] }
          (Except.ok { StatusCode := 200, Body := Body.decoded (some "abc123") })).tx
        { sent := [] }
        (Except.ok { StatusCode := 200, Body := Body.decoded (some "def456") }) =
      { err := some Error.ErrAlreadyBroadcast,
        tx := ((NewClient "b" "p").Broadcast
          { Symbol := "ETH", Price := 4500, Timestamp := 17, hash := "", status := statusInit }
          { sent := [] }
          (Except.ok { StatusCode := 200, Body := Body.decoded (some "abc123") })).tx,
        net := { sent := [] } } :=
  ⟨(Broadcast_not_init (NewClient "b" "p")
      { Symbol := "ETH", Price := 4500, Timestamp := 17, hash := "abc123",
        status := StatusPending }
      { sent := [] }
      (Except.ok { StatusCode := 200, Body := Body.decoded (some "def456") })).1 (by decide),
   (Broadcast_not_init (NewClient "b" "p")
      { Symbol := "ETH", Price := 4500, Timestamp := 17, hash := "abc123",
        status := StatusPending }
      { sent := [] }
      (Except.ok { StatusCode := 200, Body := Body.decoded (some "def456") })).2
      (NewClient "b" "p")
      { Symbol := "ETH", Price := 4500, Timestamp := 17, hash := "", status := statusInit }
      { sent := [] }
      (Except.ok { StatusCode := 200, Body := Body.decoded (some "abc123") })
      (by decide) (by decide)⟩

/-- C4: `Broadcast` is atomic on failure. For a fresh transaction (status INIT, empty hash) and
any reply of the endpoint: if `Broadcast` returns an error the transaction is unchanged, so its
status is still INIT and its hash still empty; a response whose status code is not 200 gives
`ErrNotSuccessStatus`; a response with status code 200 whose `tx_hash` is absent or empty gives
`ErrHashNotFound`. -/
theorem Broadcast_failure_atomic (c : Client) (tx : transaction) (net : Net)
    (hinit : tx.status = statusInit) (hhash : tx.hash = "") :
    (∀ (reply : Reply) (err : Error), (c.Broadcast tx net reply).err = some err →
      (c.Broadcast tx net reply).tx = tx ∧
      (c.Broadcast tx net reply).tx.status = statusInit ∧
      (c.Broadcast tx net reply).tx.hash = "") ∧
    (∀ res : Response, res.StatusCode ≠ StatusOK →
      (c.Broadcast tx net (Except.ok res)).err = some Error.ErrNotSuccessStatus) ∧
    (∀ res : Response, res.StatusCode = StatusOK →
      res.Body = Body.decoded none ∨ res.Body = Body.decoded (some "") →
      (c.Broadcast tx net (Except.ok res)).err = some Error.ErrHashNotFound) := by
  refine ⟨?_, ?_, ?_⟩
  · intro reply err herr
    rcases Broadcast_init_cases c tx net reply hinit with ⟨hsame, _⟩ | ⟨hnone, _, _⟩
    · rw [hsame]
      exact ⟨rfl, hinit, hhash⟩
    · rw [hnone] at herr
      exact absurd herr (by simp)
  · intro res hcode
    simp [Client.Broadcast, jsonMarshal, httpPost, hinit, hcode]
  · intro res hcode hbody
    rcases hbody with hb | hb <;>
      simp [Client.Broadcast, jsonMarshal, httpPost, hinit, hcode, hb, Body.decode]

theorem Broadcast_failure_atomic_witness :
    ((NewClient "b" "p").Broadcast
        { Symbol := "ETH", Price := 4500, Timestamp := 17, hash := "", status := statusInit }
        { sent := [] }
        (Except.ok { StatusCode := 500, Body := Body.decoded (some "abc123") })).tx =
      { Symbol := "ETH", Price := 4500, Timestamp := 17, hash := "", status := statusInit } ∧
    ((NewClient "b" "p").Broadcast
        { Symbol := "ETH", Price := 4500, Timestamp := 17, hash := "", status := statusInit }
        { sent := [] }
        (Except.ok { StatusCode := 500, Body := Body.decoded (some "abc123") })).err =
      some Error.ErrNotSuccessStatus ∧
    ((NewClient "b" "p").Broadcast
        { Symbol := "ETH", Price := 4500, Timestamp := 17, hash := "", status := statusInit }
        { sent := [] }
        (Except.ok { StatusCode := 200, Body := Body.decoded (some "") })).err =
      some Error.ErrHashNotFound :=
  have w := Broadcast_failure_atomic (NewClient "b" "p")
    { Symbol := "ETH", Price := 4500, Timestamp := 17, hash := "", status := statusInit }
    { sent := [] } (by decide) (by decide)
  ⟨(w.1 (Except.ok { StatusCode := 500, Body := Body.decoded (some "abc123") })
      Error.ErrNotSuccessStatus (by decide)).1,
   w.2.1 { StatusCode := 500, Body := Body.decoded (some "abc123") } (by decide),
   w.2.2 { StatusCode := 200, Body := Body.decoded (some "") } (by decide)
     (Or.inr (by decide))⟩

/-- C5: on a transaction whose hash is empty, for every client, every state of the package
defaults, every URL joiner and every schedule of the context and the ticker (the empty one
included), `Poll` returns `ErrHashNotFound` without waiting for any event, issues no request
and leaves the transaction unchanged. -/
theorem Poll_empty_hash (urlJoinPath : String → String → Except Error String) (c : Client)
    (g : Globals) (events : List SelectEvent) (tx : transaction) (net : Net)
    (hhash : tx.hash = "") :
    (c.Poll urlJoinPath g events tx net).exit = Exit.returned (some Error.ErrHashNotFound) ∧
    (c.Poll urlJoinPath g events tx net).net = net ∧
    (c.Poll urlJoinPath g events tx net).tx = tx := by
  simp [Client.Poll, hhash]

theorem Poll_empty_hash_witness :
    ((NewClient "b" "p").Poll (fun a b => Except.ok (a ++ "/" ++ b)) Globals.declared
        [SelectEvent.tick (Except.ok { StatusCode := 200, Body := Body.decoded (some "FAILED") })]
        { Symbol := "ETH", Price := 4500, Timestamp := 17, hash := "", status := statusInit }
        { sent := [] }).exit = Exit.returned (some Error.ErrHashNotFound) ∧
    ((NewClient "b" "p").Poll (fun a b => Except.ok (a ++ "/" ++ b)) Globals.declared
        [SelectEvent.tick (Except.ok { StatusCode := 200, Body := Body.decoded (some "FAILED") })]
        { Symbol := "ETH", Price := 4500, Timestamp := 17, hash := "", status := statusInit }
        { sent := [] }).net = { sent := [] } ∧
    ((NewClient "b" "p").Poll (fun a b => Except.ok (a ++ "/" ++ b)) Globals.declared
        [SelectEvent.tick (Except.ok { StatusCode := 200, Body := Body.decoded (some "FAILED") })]
        { Symbol := "ETH", Price := 4500, Timestamp := 17, hash := "", status := statusInit }
        { sent := [] }).tx =
      { Symbol := "ETH", Price := 4500, Timestamp := 17, hash := "", status := statusInit } :=
  Poll_empty_hash (fun a b => Except.ok (a ++ "/" ++ b)) (NewClient "b" "p") Globals.declared
    [SelectEvent.tick (Except.ok { StatusCode := 200, Body := Body.decoded (some "FAILED") })]
    { Symbol := "ETH", Price := 4500, Timestamp := 17, hash := "", status := statusInit }
    { sent := [] } (by decide)

/-- C6: on a transaction with a non-empty hash, when the poll URL joins, the resolved interval
is positive and the resolved handler is `p`: if the ticks deliver successful status responses
reporting `statuses` (all satisfying `p`) and then `s` with `p s = false`, with no cancellation
before, then `Poll` returns no error, has issued exactly `statuses.length + 1` requests (later
events are not looked at) and leaves the transaction with status `s`, whatever its status was
before the call. -/
theorem Poll_stops_at_first_false (urlJoinPath : String → String → Except Error String)
    (c : Client) (g : Globals) (tx : transaction) (net : Net) (url : String)
    (o : PollingOptions) (p : PollingHandler) (replies : List Reply)
    (statuses : List TransactionStatus) (reply : Reply) (s : TransactionStatus)
    (rest : List SelectEvent) (hhash : tx.hash ≠ "")
    (hurl : urlJoinPath c.BasePollingUrl tx.hash = Except.ok url)
    (hres : c.resolved g = some o) (hint : 0 < o.Interval) (hp : o.Handler = some p)
    (hrep : List.Forall₂ reports replies statuses) (hcont : ∀ s1 ∈ statuses, p s1 = true)
    (hlast : reports reply s) (hstop : p s = false) :
    (c.Poll urlJoinPath g (replies.map SelectEvent.tick ++ SelectEvent.tick reply :: rest)
        tx net).exit = Exit.returned none ∧
    (c.Poll urlJoinPath g (replies.map SelectEvent.tick ++ SelectEvent.tick reply :: rest)
        tx net).net.sent = net.sent ++ queries url (statuses.length + 1) ∧
    (c.Poll urlJoinPath g (replies.map SelectEvent.tick ++ SelectEvent.tick reply :: rest)
        tx net).tx = { tx with status := s } := by
  obtain ⟨hexit, htx, hnet⟩ := Poll_eq_pollLoop urlJoinPath c g
    (replies.map SelectEvent.tick ++ SelectEvent.tick reply :: rest) tx net url o hhash hurl
    hres hint
  rw [hexit, htx, hnet,
    pollLoop_run _ _ url o p hres hp replies statuses hrep hcont tx net,
    pollLoop_stop _ _ url o p hres hp none _ _ reply s rest hlast hstop]
  refine ⟨rfl, ?_, rfl⟩
  simp [List.append_assoc, queries_snoc]


theorem Poll_stops_at_first_false_witness :
    ((sampleClient.Poll sampleJoin Globals.declared
        [SelectEvent.tick (statusReply StatusPending), SelectEvent.tick (statusReply StatusPending),
         SelectEvent.tick (statusReply StatusFailed)]
        samplePending { sent := [] }).exit = Exit.returned none ∧
     (sampleClient.Poll sampleJoin Globals.declared
        [SelectEvent.tick (statusReply StatusPending), SelectEvent.tick (statusReply StatusPending),
         SelectEvent.tick (statusReply StatusFailed)]
        samplePending { sent := [] }).net.sent = queries "node/check/abc123" 3 ∧
     (sampleClient.Poll sampleJoin Globals.declared
        [SelectEvent.tick (statusReply StatusPending), SelectEvent.tick (statusReply StatusPending),
         SelectEvent.tick (statusReply StatusFailed)]
        samplePending { sent := [] }).tx = { samplePending with status := StatusFailed }) ∧
    ((sampleClient.Poll sampleJoin Globals.declared
        [SelectEvent.tick (statusReply StatusConfirm)]
        samplePending { sent := [] }).exit = Exit.returned none ∧
     (sampleClient.Poll sampleJoin Globals.declared
        [SelectEvent.tick (statusReply StatusConfirm)]
        samplePending { sent := [] }).net.sent = queries "node/check/abc123" 1 ∧
     (sampleClient.Poll sampleJoin Globals.declared
        [SelectEvent.tick (statusReply StatusConfirm)]
        samplePending { sent := [] }).tx = { samplePending with status := StatusConfirm }) :=
  ⟨Poll_stops_at_first_false sampleJoin sampleClient Globals.declared samplePending
      { sent := [] } "node/check/abc123" { Interval := Second, Handler := some defaultHandler }
      defaultHandler [statusReply StatusPending, statusReply StatusPending]
      [StatusPending, StatusPending] (statusReply StatusFailed) StatusFailed []
      (by decide) (by decide) rfl (by decide) rfl
      (List.Forall₂.cons (by decide) (List.Forall₂.cons (by decide) List.Forall₂.nil))
      (by decide) (by decide) (by decide),
   Poll_stops_at_first_false sampleJoin sampleClient Globals.declared samplePending
      { sent := [] } "node/check/abc123" { Interval := Second, Handler := some defaultHandler }
      defaultHandler [] [] (statusReply StatusConfirm) StatusConfirm []
      (by decide) (by decide) rfl (by decide) rfl List.Forall₂.nil
      (by decide) (by decide) (by decide)⟩

/-- C7: cancellation is a clean exit. On a transaction with a non-empty hash, when the poll URL
joins, the resolved interval is positive and the resolved handler is `p`: after `j` ticks whose
queries succeed with `statuses` (`j` of them, all satisfying `p`) the cancellation signal makes
`Poll` return nil, with exactly `j` requests issued (events after the signal are not looked at)
and the status at the last value observed, the value before the call when `j = 0`; a signal
that comes before any tick leaves log and transaction untouched. -/
theorem Poll_cancelled (urlJoinPath : String → String → Except Error String)
    (c : Client) (g : Globals) (tx : transaction) (net : Net) (url : String)
    (o : PollingOptions) (p : PollingHandler) (replies : List Reply)
    (statuses : List TransactionStatus) (rest : List SelectEvent) (hhash : tx.hash ≠ "")
    (hurl : urlJoinPath c.BasePollingUrl tx.hash = Except.ok url)
    (hres : c.resolved g = some o) (hint : 0 < o.Interval) (hp : o.Handler = some p)
    (hrep : List.Forall₂ reports replies statuses) (hcont : ∀ s1 ∈ statuses, p s1 = true) :
    ((c.Poll urlJoinPath g (replies.map SelectEvent.tick ++ SelectEvent.done :: rest)
        tx net).exit = Exit.returned none ∧
     (c.Poll urlJoinPath g (replies.map SelectEvent.tick ++ SelectEvent.done :: rest)
        tx net).net.sent = net.sent ++ queries url statuses.length ∧
     (c.Poll urlJoinPath g (replies.map SelectEvent.tick ++ SelectEvent.done :: rest)
        tx net).tx = { tx with status := lastObserved tx.status statuses }) ∧
    ((c.Poll urlJoinPath g (SelectEvent.done :: rest) tx net).exit = Exit.returned none ∧
     (c.Poll urlJoinPath g (SelectEvent.done :: rest) tx net).net = net ∧
     (c.Poll urlJoinPath g (SelectEvent.done :: rest) tx net).tx = tx) := by
  constructor
  · obtain ⟨hexit, htx, hnet⟩ := Poll_eq_pollLoop urlJoinPath c g
      (replies.map SelectEvent.tick ++ SelectEvent.done :: rest) tx net url o hhash hurl
      hres hint
    rw [hexit, htx, hnet,
      pollLoop_run _ _ url o p hres hp replies statuses hrep hcont tx net, pollLoop_done]
    exact ⟨rfl, rfl, rfl⟩
  · obtain ⟨hexit, htx, hnet⟩ := Poll_eq_pollLoop urlJoinPath c g
      (SelectEvent.done :: rest) tx net url o hhash hurl hres hint
    rw [hexit, htx, hnet, pollLoop_done]
    exact ⟨rfl, rfl, rfl⟩


theorem Poll_cancelled_witness :
    ((sampleClient.Poll sampleJoin Globals.declared
        [SelectEvent.tick (statusReply StatusPending), SelectEvent.done,
         SelectEvent.tick (statusReply StatusFailed)]
        samplePending { sent := [] }).exit = Exit.returned none ∧
     (sampleClient.Poll sampleJoin Globals.declared
        [SelectEvent.tick (statusReply StatusPending), SelectEvent.done,
         SelectEvent.tick (statusReply StatusFailed)]
        samplePending { sent := [] }).net.sent = queries "node/check/abc123" 1 ∧
     (sampleClient.Poll sampleJoin Globals.declared
        [SelectEvent.tick (statusReply StatusPending), SelectEvent.done,
         SelectEvent.tick (statusReply StatusFailed)]
        samplePending { sent := [] }).tx = samplePending) ∧
    ((sampleClient.Poll sampleJoin Globals.declared
        [SelectEvent.done, SelectEvent.tick (statusReply StatusFailed)]
        samplePending { sent := [] }).exit = Exit.returned none ∧
     (sampleClient.Poll sampleJoin Globals.declared
        [SelectEvent.done, SelectEvent.tick (statusReply StatusFailed)]
        samplePending { sent := [] }).net = { sent := [] } ∧
     (sampleClient.Poll sampleJoin Globals.declared
        [SelectEvent.done, SelectEvent.tick (statusReply StatusFailed)]
        samplePending { sent := [] }).tx = samplePending) :=
  Poll_cancelled sampleJoin sampleClient Globals.declared samplePending
    { sent := [] } "node/check/abc123" { Interval := Second, Handler := some defaultHandler }
    defaultHandler [statusReply StatusPending] [StatusPending]
    [SelectEvent.tick (statusReply StatusFailed)]
    (by decide) (by decide) rfl (by decide) rfl
    (List.Forall₂.cons (by decide) List.Forall₂.nil) (by decide)

/-- C8: the loop ends at the first failed query. On a transaction with a non-empty hash, when the
poll URL joins, the resolved interval is positive and the resolved handler is `p`: after ticks
whose queries succeed with `statuses` (all satisfying `p`), a tick whose query fails with `e`
(transport error, status code other than 200, or undecodable body) makes `Poll` return the
error `e`; that query is the last request issued, and the status is the last value observed
before it (the value before the call if there is none). When the failure is a status code
other than 200, `e` is `ErrNotSuccessStatus`. -/
theorem Poll_query_fails (urlJoinPath : String → String → Except Error String)
    (c : Client) (g : Globals) (tx : transaction) (net : Net) (url : String)
    (o : PollingOptions) (p : PollingHandler) (replies : List Reply)
    (statuses : List TransactionStatus) (reply : Reply) (e : Error)
    (rest : List SelectEvent) (hhash : tx.hash ≠ "")
    (hurl : urlJoinPath c.BasePollingUrl tx.hash = Except.ok url)
    (hres : c.resolved g = some o) (hint : 0 < o.Interval) (hp : o.Handler = some p)
    (hrep : List.Forall₂ reports replies statuses) (hcont : ∀ s1 ∈ statuses, p s1 = true)
    (hfail : failsWith reply e) :
    (c.Poll urlJoinPath g (replies.map SelectEvent.tick ++ SelectEvent.tick reply :: rest)
        tx net).exit = Exit.returned (some e) ∧
    (c.Poll urlJoinPath g (replies.map SelectEvent.tick ++ SelectEvent.tick reply :: rest)
        tx net).net.sent = net.sent ++ queries url (statuses.length + 1) ∧
    (c.Poll urlJoinPath g (replies.map SelectEvent.tick ++ SelectEvent.tick reply :: rest)
        tx net).tx = { tx with status := lastObserved tx.status statuses } ∧
    (∀ res : Response, reply = Except.ok res → res.StatusCode ≠ StatusOK →
      e = Error.ErrNotSuccessStatus) := by
  obtain ⟨hexit, htx, hnet⟩ := Poll_eq_pollLoop urlJoinPath c g
    (replies.map SelectEvent.tick ++ SelectEvent.tick reply :: rest) tx net url o hhash hurl
    hres hint
  rw [hexit, htx, hnet,
    pollLoop_run _ _ url o p hres hp replies statuses hrep hcont tx net,
    pollLoop_fail _ _ url none _ _ reply e rest hfail]
  refine ⟨rfl, ?_, rfl, ?_⟩
  · simp [List.append_assoc, queries_snoc]
  · intro res hreply hcode
    subst hreply
    rcases hfail with ⟨_, he⟩ | ⟨hok, _⟩
    · exact he
    · exact absurd hok hcode


theorem Poll_query_fails_witness :
    (sampleClient.Poll sampleJoin Globals.declared
        [SelectEvent.tick (statusReply StatusPending),
         SelectEvent.tick (Except.ok { StatusCode := 500, Body := Body.decoded (some StatusFailed) }),
         SelectEvent.tick (statusReply StatusFailed)]
        samplePending { sent := [] }).exit = Exit.returned (some Error.ErrNotSuccessStatus) ∧
    (sampleClient.Poll sampleJoin Globals.declared
        [SelectEvent.tick (statusReply StatusPending),
         SelectEvent.tick (Except.ok { StatusCode := 500, Body := Body.decoded (some StatusFailed) }),
         SelectEvent.tick (statusReply StatusFailed)]
        samplePending { sent := [] }).net.sent = queries "node/check/abc123" 2 ∧
    (sampleClient.Poll sampleJoin Globals.declared
        [SelectEvent.tick (statusReply StatusPending),
         SelectEvent.tick (Except.ok { StatusCode := 500, Body := Body.decoded (some StatusFailed) }),
         SelectEvent.tick (statusReply StatusFailed)]
        samplePending { sent := [] }).tx = samplePending :=
  have w := Poll_query_fails sampleJoin sampleClient Globals.declared samplePending
    { sent := [] } "node/check/abc123" { Interval := Second, Handler := some defaultHandler }
    defaultHandler [statusReply StatusPending] [StatusPending]
    (Except.ok { StatusCode := 500, Body := Body.decoded (some StatusFailed) })
    Error.ErrNotSuccessStatus [SelectEvent.tick (statusReply StatusFailed)]
    (by decide) (by decide) rfl (by decide) rfl
    (List.Forall₂.cons (by decide) List.Forall₂.nil) (by decide) (by decide)
  ⟨w.1, w.2.1, w.2.2.1⟩

/-- C9: the handler of `defaultPollingOptions` is the default handler, and for every status
string `s` it returns `s == PENDING`: true exactly for PENDING, false for CONFIRMED, FAILED,
DNE, INIT and every other string. -/
theorem defaultHandler_spec (s : TransactionStatus) :
    defaultPollingOptions.Handler = some defaultHandler ∧
    defaultHandler s = (s == StatusPending) ∧
    (defaultHandler s = true ↔ s = StatusPending) ∧
    defaultHandler StatusPending = true ∧
    defaultHandler StatusConfirm = false ∧
    defaultHandler StatusFailed = false ∧
    defaultHandler StatusDNE = false ∧
    defaultHandler statusInit = false := by
  refine ⟨rfl, rfl, ?_, by decide, by decide, by decide, by decide, by decide⟩
  simp [defaultHandler]

/-- C10: the code at the failing inputs. `NewClient` installs the pointer to the package default,
so a caller's `c.Interval = 0` or `c.Handler = nil` on such a client writes the package default
itself, and `setPollingOptions` then copies the default's own zero interval or nil handler back
onto it. With the interval at zero the resolved interval is 0, not 5 seconds, and `Poll` panics
when it creates the ticker; with the handler unset the resolved handler is nil, not the
default handler, and `Poll` panics when it calls it, after the status was written. After
`c.Interval = Second` on one such client, a client with nil options resolves to one second. -/
theorem resolution_through_shared_default :
    (sampleZeroed.1.deref sampleZeroed.2).map (fun o => o.Interval) = some 0 ∧
    (sampleZeroed.1.resolved sampleZeroed.2).map (fun r => r.Interval) = some 0 ∧
    (sampleZeroed.1.Poll sampleJoin sampleZeroed.2
      [SelectEvent.tick (statusReply StatusConfirm)] samplePending { sent := [] }).exit =
        Exit.panicked ∧
    ((sampleCleared.1.deref sampleCleared.2).bind (fun o => o.Handler)).isNone = true ∧
    ((sampleCleared.1.resolved sampleCleared.2).bind (fun r => r.Handler)).isNone = true ∧
    (sampleCleared.1.Poll sampleJoin sampleCleared.2
      [SelectEvent.tick (statusReply StatusConfirm)] samplePending { sent := [] }).exit =
        Exit.panicked ∧
    (sampleCleared.1.Poll sampleJoin sampleCleared.2
      [SelectEvent.tick (statusReply StatusConfirm)] samplePending { sent := [] }).tx.status =
        StatusConfirm ∧
    sampleBareClient.deref sampleCustomized.2 = none ∧
    (sampleBareClient.resolved sampleCustomized.2).map (fun r => r.Interval) = some Second := by
  refine ⟨by decide, by decide, by decide, rfl, rfl, by decide, by decide, rfl, by decide⟩

/-- C11, as stated, fails: after a broadcast and a poll that observed CONFIRMED, a further poll
to which the remote reports PENDING (every report being one of the five statuses) sets the
status to PENDING again; CONFIRMED to PENDING is no edge of the state machine. -/
theorem status_reenters_pending :
    NewTransaction "ETH" 4500 1709738070 = Except.ok sampleFresh ∧
    (∀ op ∈ [sampleBroadcast, samplePoll [StatusConfirm], samplePoll [StatusPending]],
      ∀ s ∈ op.reported, s ∈ enumerated) ∧
    (run sampleStart [sampleBroadcast]).tx.status = StatusPending ∧
    (run sampleStart [sampleBroadcast, samplePoll [StatusConfirm]]).tx.status = StatusConfirm ∧
    (run sampleStart [sampleBroadcast, samplePoll [StatusConfirm],
      samplePoll [StatusPending]]).tx.status = StatusPending ∧
    ¬ legalEdge StatusConfirm StatusPending := by
  refine ⟨by decide, by decide, by decide, by decide, by decide, by decide⟩

/-- C11, amended: a call leaves the status unchanged, or is a `Broadcast` that takes it from INIT
to PENDING, or is a `Poll` on a transaction with a hash that sets it to a status the remote
reported during that call, whatever the status was. In every sequence of calls in which the
remote does not report INIT, a status that has left INIT is never INIT again; in every sequence
in which the remote reports neither INIT nor PENDING, a status that has left INIT and PENDING is
never PENDING again. -/
theorem status_transitions (st : State) :
    (∀ op : Op,
      (op.apply st).tx.status = st.tx.status ∨
      (st.tx.status = statusInit ∧ (op.apply st).tx.status = StatusPending ∧
        ∃ (c : Client) (reply : Reply), op = Op.broadcast c reply) ∨
      (st.tx.hash ≠ "" ∧ (op.apply st).tx.status ∈ op.reported ∧
        ∃ (urlJoinPath : String → String → Except Error String) (c : Client)
          (events : List SelectEvent), op = Op.poll urlJoinPath c events)) ∧
    (∀ ops : List Op, (∀ op ∈ ops, statusInit ∉ op.reported) →
      st.tx.status ≠ statusInit → (run st ops).tx.status ≠ statusInit) ∧
    (∀ ops : List Op, (∀ op ∈ ops, statusInit ∉ op.reported ∧ StatusPending ∉ op.reported) →
      st.tx.status ≠ statusInit → st.tx.status ≠ StatusPending →
      (run st ops).tx.status ≠ StatusPending) := by
  refine ⟨?_, ?_, ?_⟩
  · intro op
    rcases apply_cases st op with h | ⟨hinit, hp, _, c, reply, hop, _⟩ |
      ⟨hh, _, hmem, j, c, events, hop⟩
    · exact Or.inl (by rw [h])
    · exact Or.inr (Or.inl ⟨hinit, hp, c, reply, hop⟩)
    · exact Or.inr (Or.inr ⟨hh, hmem, j, c, events, hop⟩)
  · intro ops hrep hst
    apply run_status_avoids (fun s => s = statusInit) rfl ops st _ hst
    intro op hop s hs hbad
    exact hrep op hop (hbad ▸ hs)
  · intro ops hrep hinit hpend
    have hkey := run_status_avoids (fun s => s = statusInit ∨ s = StatusPending)
      (Or.inl rfl) ops st
      (by
        intro op hop s hs hbad
        rcases hbad with hbad | hbad
        · exact (hrep op hop).1 (hbad ▸ hs)
        · exact (hrep op hop).2 (hbad ▸ hs))
      (by
        intro hbad
        rcases hbad with hbad | hbad
        · exact hinit hbad
        · exact hpend hbad)
    intro hp
    exact hkey (Or.inr hp)

theorem status_transitions_witness :
    (run (run sampleStart [sampleBroadcast, samplePoll [StatusConfirm]])
        [samplePoll [StatusFailed], sampleBroadcast]).tx.status ≠ statusInit ∧
    (run (run sampleStart [sampleBroadcast, samplePoll [StatusConfirm]])
        [samplePoll [StatusFailed], sampleBroadcast]).tx.status ≠ StatusPending :=
  ⟨(status_transitions (run sampleStart [sampleBroadcast, samplePoll [StatusConfirm]])).2.1
      [samplePoll [StatusFailed], sampleBroadcast] (by decide) (by decide),
   (status_transitions (run sampleStart [sampleBroadcast, samplePoll [StatusConfirm]])).2.2
      [samplePoll [StatusFailed], sampleBroadcast] (by decide) (by decide) (by decide)⟩

/-- C12, as stated, fails: INIT is one of the five statuses, and when the remote reports it to
a poll on a broadcast transaction, the transaction has a hash and the status INIT. -/
theorem hash_set_with_status_init :
    NewTransaction "ETH" 4500 1709738070 = Except.ok sampleFresh ∧
    (∀ op ∈ [sampleBroadcast, samplePoll [statusInit]], ∀ s ∈ op.reported, s ∈ enumerated) ∧
    (run sampleStart [sampleBroadcast, samplePoll [statusInit]]).tx.hash = "abc123" ∧
    (run sampleStart [sampleBroadcast, samplePoll [statusInit]]).tx.status = statusInit := by
  refine ⟨by decide, by decide, by decide, by decide⟩

/-- C12, amended: in every state reached from `NewTransaction` by `Broadcast` and `Poll` calls,
a transaction whose hash is empty has status INIT; and when the remote has not reported INIT,
a transaction whose status is INIT has an empty hash, so that the two are then equivalent. -/
theorem hash_status_relation (symbol : String) (price timestamp : Nat) (tx0 : transaction)
    (g : Globals) (net : Net) (ops : List Op)
    (hnew : NewTransaction symbol price timestamp = Except.ok tx0) :
    ((run { tx := tx0, g := g, net := net } ops).tx.hash = "" →
      (run { tx := tx0, g := g, net := net } ops).tx.status = statusInit) ∧
    ((∀ op ∈ ops, statusInit ∉ op.reported) →
      ((run { tx := tx0, g := g, net := net } ops).tx.hash = "" ↔
        (run { tx := tx0, g := g, net := net } ops).tx.status = statusInit)) := by
  obtain ⟨hh, hs⟩ := NewTransaction_fresh symbol price timestamp tx0 hnew
  have h1 := run_hash_empty_init ops { tx := tx0, g := g, net := net } (fun _ => hs)
  refine ⟨h1, ?_⟩
  intro hrep
  exact ⟨h1, run_init_hash_empty ops { tx := tx0, g := g, net := net } hrep (fun _ => hh)⟩

theorem hash_status_relation_witness :
    ((run sampleStart [sampleBroadcast, samplePoll [StatusPending, StatusFailed]]).tx.hash = "" →
      (run sampleStart [sampleBroadcast, samplePoll [StatusPending, StatusFailed]]).tx.status =
        statusInit) ∧
    ((run sampleStart [sampleBroadcast, samplePoll [StatusPending, StatusFailed]]).tx.hash = "" ↔
      (run sampleStart [sampleBroadcast, samplePoll [StatusPending, StatusFailed]]).tx.status =
        statusInit) :=
  have w := hash_status_relation "ETH" 4500 1709738070 sampleFresh Globals.declared
    { sent := [] } [sampleBroadcast, samplePoll [StatusPending, StatusFailed]] (by decide)
  ⟨w.1, w.2 (by decide)⟩

/-- C13, as stated, fails: when the remote reports INIT to a poll, the status is INIT again, and
a further `Broadcast` passes the status check and assigns a second hash. -/
theorem hash_reassigned :
    NewTransaction "ETH" 4500 1709738070 = Except.ok sampleFresh ∧
    (run sampleStart [sampleBroadcast, samplePoll [statusInit]]).tx.hash = "abc123" ∧
    (run sampleStart [sampleBroadcast, samplePoll [statusInit],
      Op.broadcast sampleClient (hashReply "def456")]).tx.hash = "def456" := by
  refine ⟨by decide, by decide, by decide⟩

/-- C13, amended: `Poll` never writes the hash; `Broadcast` leaves the hash alone unless the
status is INIT; and in every sequence of calls on a transaction of `NewTransaction` in which
the remote does not report INIT, once the hash is non-empty no later call changes it. -/
theorem hash_assignment (symbol : String) (price timestamp : Nat) (tx0 : transaction)
    (g : Globals) (net : Net) (ops1 ops2 : List Op)
    (hnew : NewTransaction symbol price timestamp = Except.ok tx0) :
    (∀ (urlJoinPath : String → String → Except Error String) (c : Client) (g1 : Globals)
        (events : List SelectEvent) (tx : transaction) (net1 : Net),
      (c.Poll urlJoinPath g1 events tx net1).tx.hash = tx.hash) ∧
    (∀ (c : Client) (tx : transaction) (net1 : Net) (reply : Reply),
      tx.status ≠ statusInit → (c.Broadcast tx net1 reply).tx.hash = tx.hash) ∧
    ((∀ op ∈ ops1 ++ ops2, statusInit ∉ op.reported) →
      (run { tx := tx0, g := g, net := net } ops1).tx.hash ≠ "" →
      (run { tx := tx0, g := g, net := net } (ops1 ++ ops2)).tx.hash =
        (run { tx := tx0, g := g, net := net } ops1).tx.hash) := by
  obtain ⟨hh, _⟩ := NewTransaction_fresh symbol price timestamp tx0 hnew
  refine ⟨?_, ?_, ?_⟩
  · intro urlJoinPath c g1 events tx net1
    exact (Poll_frame urlJoinPath c g1 events tx net1).2.2.2.1
  · intro c tx net1 reply hst
    rcases (Broadcast_frame c tx net1 reply).2.2.2 with h | ⟨hinit, _⟩
    · rw [h]
    · exact absurd hinit hst
  · intro hrep hne
    have hrep1 : ∀ op ∈ ops1, statusInit ∉ op.reported :=
      fun op hop => hrep op (List.mem_append_left ops2 hop)
    have hrep2 : ∀ op ∈ ops2, statusInit ∉ op.reported :=
      fun op hop => hrep op (List.mem_append_right ops1 hop)
    have hinv := run_init_hash_empty ops1 { tx := tx0, g := g, net := net } hrep1 (fun _ => hh)
    rw [run_append]
    exact run_hash_fixed ops2 _ hrep2 hinv hne

theorem hash_assignment_witness :
    (run sampleStart ([sampleBroadcast, samplePoll [StatusFailed]] ++
        [Op.broadcast sampleClient (hashReply "def456"), samplePoll [StatusConfirm]])).tx.hash =
      (run sampleStart [sampleBroadcast, samplePoll [StatusFailed]]).tx.hash :=
  (hash_assignment "ETH" 4500 1709738070 sampleFresh Globals.declared { sent := [] }
    [sampleBroadcast, samplePoll [StatusFailed]]
    [Op.broadcast sampleClient (hashReply "def456"), samplePoll [StatusConfirm]]
    (by decide)).2.2 (by decide) (by decide)

/-- C14, as stated, fails: in the state reached by a broadcast and a poll to which the remote
reported INIT, the status is INIT, and a further `Poll` (not a `Broadcast`) to which the remote
reports CONFIRMED takes the status out of INIT. -/
theorem status_leaves_init_by_poll :
    NewTransaction "ETH" 4500 1709738070 = Except.ok sampleFresh ∧
    (run sampleStart [sampleBroadcast, samplePoll [statusInit]]).tx.status = statusInit ∧
    ((samplePoll [StatusConfirm]).apply
      (run sampleStart [sampleBroadcast, samplePoll [statusInit]])).tx.status = StatusConfirm ∧
    ¬ ∃ (c : Client) (reply : Reply), samplePoll [StatusConfirm] = Op.broadcast c reply := by
  refine ⟨by decide, by decide, by decide, ?_⟩
  rintro ⟨c, reply, h⟩
  simp [samplePoll] at h

/-- C14, amended: on a transaction whose status is INIT and whose hash is empty, a call after
which the status is not INIT is a `Broadcast` that returned nil; this covers every state with
status INIT reached from `NewTransaction` by calls in which the remote did not report INIT. -/
theorem leaves_init_by_broadcast (st : State) (op : Op) :
    (st.tx.status = statusInit → st.tx.hash = "" → (op.apply st).tx.status ≠ statusInit →
      ∃ (c : Client) (reply : Reply), op = Op.broadcast c reply ∧
        (c.Broadcast st.tx st.net reply).err = none) ∧
    (∀ (symbol : String) (price timestamp : Nat) (tx0 : transaction) (g : Globals) (net : Net)
        (ops : List Op), NewTransaction symbol price timestamp = Except.ok tx0 →
      (∀ o ∈ ops, statusInit ∉ o.reported) → st = run { tx := tx0, g := g, net := net } ops →
      st.tx.status = statusInit → (op.apply st).tx.status ≠ statusInit →
      ∃ (c : Client) (reply : Reply), op = Op.broadcast c reply ∧
        (c.Broadcast st.tx st.net reply).err = none) := by
  have key : st.tx.status = statusInit → st.tx.hash = "" →
      (op.apply st).tx.status ≠ statusInit →
      ∃ (c : Client) (reply : Reply), op = Op.broadcast c reply ∧
        (c.Broadcast st.tx st.net reply).err = none := by
    intro hinit hhash hleft
    rcases apply_cases st op with h | ⟨_, _, _, c, reply, hop, hnone⟩ | ⟨hh, _⟩
    · rw [h] at hleft
      exact absurd hinit hleft
    · exact ⟨c, reply, hop, hnone⟩
    · exact absurd hhash hh
  refine ⟨key, ?_⟩
  intro symbol price timestamp tx0 g net ops hnew hrep hst hinit hleft
  obtain ⟨hh, _⟩ := NewTransaction_fresh symbol price timestamp tx0 hnew
  have hinv := run_init_hash_empty ops { tx := tx0, g := g, net := net } hrep (fun _ => hh)
  rw [← hst] at hinv
  exact key hinit (hinv hinit) hleft

theorem leaves_init_by_broadcast_witness :
    (∃ (c : Client) (reply : Reply), sampleBroadcast = Op.broadcast c reply ∧
      (c.Broadcast sampleStart.tx sampleStart.net reply).err = none) ∧
    (∃ (c : Client) (reply : Reply), sampleBroadcast = Op.broadcast c reply ∧
      (c.Broadcast (run sampleStart [samplePoll [StatusFailed]]).tx
        (run sampleStart [samplePoll [StatusFailed]]).net reply).err = none) :=
  ⟨(leaves_init_by_broadcast sampleStart sampleBroadcast).1 (by decide) (by decide) (by decide),
   (leaves_init_by_broadcast (run sampleStart [samplePoll [StatusFailed]]) sampleBroadcast).2
      "ETH" 4500 1709738070 sampleFresh Globals.declared { sent := [] }
      [samplePoll [StatusFailed]] (by decide) (by decide) rfl (by decide) (by decide)⟩

/-- C15, as stated, fails: on a transaction with a hash and the terminal status CONFIRMED, under
the default predicate and without cancellation, a `Poll` whose first query succeeds and reports
PENDING goes on to a second query; here it returns nil after two requests with the status the
second query reported. -/
theorem Poll_terminal_two_requests :
    sampleConfirmed.hash ≠ "" ∧ sampleConfirmed.status = StatusConfirm ∧
    (sampleClient.resolved Globals.declared).bind (fun r => r.Handler) = some defaultHandler ∧
    reports (statusReply StatusPending) StatusPending ∧
    (sampleClient.Poll sampleJoin Globals.declared
      [SelectEvent.tick (statusReply StatusPending), SelectEvent.tick (statusReply StatusFailed)]
      sampleConfirmed { sent := [] }).exit = Exit.returned none ∧
    (sampleClient.Poll sampleJoin Globals.declared
      [SelectEvent.tick (statusReply StatusPending), SelectEvent.tick (statusReply StatusFailed)]
      sampleConfirmed { sent := [] }).net.sent = queries "node/check/abc123" 2 ∧
    (sampleClient.Poll sampleJoin Globals.declared
      [SelectEvent.tick (statusReply StatusPending), SelectEvent.tick (statusReply StatusFailed)]
      sampleConfirmed { sent := [] }).tx.status = StatusFailed := by
  refine ⟨by decide, by decide, rfl, by decide, by decide, by decide, by decide⟩

/-- C15, amended: on a transaction with a non-empty hash (in particular one at a terminal
status), when the poll URL joins, the resolved interval is positive and the resolved handler is
the default one, a `Poll` whose first query succeeds and reports a status `r` other than PENDING
performs exactly one request and returns nil; the resulting status is `r`, and if `r` is the
status the transaction had, the transaction is left exactly as it was. -/
theorem Poll_terminal_idempotent (urlJoinPath : String → String → Except Error String)
    (c : Client) (g : Globals) (tx : transaction) (net : Net) (url : String)
    (o : PollingOptions) (reply : Reply) (r : TransactionStatus) (rest : List SelectEvent)
    (hhash : tx.hash ≠ "") (hurl : urlJoinPath c.BasePollingUrl tx.hash = Except.ok url)
    (hres : c.resolved g = some o) (hint : 0 < o.Interval)
    (hp : o.Handler = some defaultHandler) (hrep : reports reply r)
    (hnp : r ≠ StatusPending) :
    (c.Poll urlJoinPath g (SelectEvent.tick reply :: rest) tx net).exit = Exit.returned none ∧
    (c.Poll urlJoinPath g (SelectEvent.tick reply :: rest) tx net).net.sent =
      net.sent ++ queries url 1 ∧
    (c.Poll urlJoinPath g (SelectEvent.tick reply :: rest) tx net).tx.status = r ∧
    (c.Poll urlJoinPath g (SelectEvent.tick reply :: rest) tx net).tx = { tx with status := r } ∧
    (r = tx.status →
      (c.Poll urlJoinPath g (SelectEvent.tick reply :: rest) tx net).tx = tx) := by
  have hstop : defaultHandler r = false := by
    simp [defaultHandler, hnp]
  obtain ⟨hexit, htx, hnet⟩ := Poll_eq_pollLoop urlJoinPath c g
    (SelectEvent.tick reply :: rest) tx net url o hhash hurl hres hint
  rw [hexit, htx, hnet,
    pollLoop_stop _ _ url o defaultHandler hres hp none tx net reply r rest hrep hstop]
  refine ⟨rfl, rfl, rfl, rfl, ?_⟩
  intro hr
  subst hr
  rfl

theorem Poll_terminal_idempotent_witness :
    (sampleClient.Poll sampleJoin Globals.declared
      [SelectEvent.tick (statusReply StatusConfirm), SelectEvent.tick (statusReply StatusFailed)]
      sampleConfirmed { sent := [] }).exit = Exit.returned none ∧
    (sampleClient.Poll sampleJoin Globals.declared
      [SelectEvent.tick (statusReply StatusConfirm), SelectEvent.tick (statusReply StatusFailed)]
      sampleConfirmed { sent := [] }).net.sent = queries "node/check/abc123" 1 ∧
    (sampleClient.Poll sampleJoin Globals.declared
      [SelectEvent.tick (statusReply StatusConfirm), SelectEvent.tick (statusReply StatusFailed)]
      sampleConfirmed { sent := [] }).tx = sampleConfirmed :=
  have w := Poll_terminal_idempotent sampleJoin sampleClient Globals.declared sampleConfirmed
    { sent := [] } "node/check/abc123" { Interval := Second, Handler := some defaultHandler }
    (statusReply StatusConfirm) StatusConfirm [SelectEvent.tick (statusReply StatusFailed)]
    (by decide) (by decide) rfl (by decide) rfl (by decide) (by decide)
  ⟨w.1, w.2.1, w.2.2.2.2 rfl⟩

/-- C16: the code at the failing inputs. After `NewTransaction` and a successful `Broadcast`, a
`Poll` whose query is answered with status code 200 and a body without `tx_status` returns nil
and leaves the status the empty string; answered with the status "UNKNOWN" it leaves the status
"UNKNOWN". Neither is one of the five status constants. -/
theorem Poll_stores_unlisted_status :
    NewTransaction "ETH" 4500 1709738070 = Except.ok sampleFresh ∧
    (sampleClient.Poll sampleJoin Globals.declared [SelectEvent.tick emptyReply]
      (run sampleStart [sampleBroadcast]).tx (run sampleStart [sampleBroadcast]).net).exit =
        Exit.returned none ∧
    (run sampleStart [sampleBroadcast,
      Op.poll sampleJoin sampleClient [SelectEvent.tick emptyReply]]).tx.status = "" ∧
    "" ∉ enumerated ∧
    (run sampleStart [sampleBroadcast, samplePoll ["UNKNOWN"]]).tx.status = "UNKNOWN" ∧
    "UNKNOWN" ∉ enumerated := by
  refine ⟨by decide, by decide, by decide, by decide, by decide, by decide⟩

/-- C17: the identity fields are immutable. For every transaction, every `Broadcast` and every
`Poll` on it, whatever the endpoint answers and however the call ends, symbol, price and
timestamp after the call are those before the call. -/
theorem identity_fields_immutable :
    (∀ (c : Client) (tx : transaction) (net : Net) (reply : Reply),
      (c.Broadcast tx net reply).tx.Symbol = tx.Symbol ∧
      (c.Broadcast tx net reply).tx.Price = tx.Price ∧
      (c.Broadcast tx net reply).tx.Timestamp = tx.Timestamp) ∧
    (∀ (urlJoinPath : String → String → Except Error String) (c : Client) (g : Globals)
        (events : List SelectEvent) (tx : transaction) (net : Net),
      (c.Poll urlJoinPath g events tx net).tx.Symbol = tx.Symbol ∧
      (c.Poll urlJoinPath g events tx net).tx.Price = tx.Price ∧
      (c.Poll urlJoinPath g events tx net).tx.Timestamp = tx.Timestamp) := by
  constructor
  · intro c tx net reply
    obtain ⟨h1, h2, h3, _⟩ := Broadcast_frame c tx net reply
    exact ⟨h1, h2, h3⟩
  · intro urlJoinPath c g events tx net
    obtain ⟨h1, h2, h3, _⟩ := Poll_frame urlJoinPath c g events tx net
    exact ⟨h1, h2, h3⟩

/-- C18: configuration resolution does not mutate the package default. For every client (nil
options, options of the caller, or the pointer to the package default that `NewClient`
installs) and every value of the package default, `setPollingOptions` and `Poll` leave the
package default as it was; with the declared value, it still has the interval of 5 seconds and
the default handler afterwards. -/
theorem defaults_not_mutated (c : Client) (g : Globals) :
    (c.setPollingOptions g).2 = g ∧
    (∀ (urlJoinPath : String → String → Except Error String) (events : List SelectEvent)
        (tx : transaction) (net : Net), (c.Poll urlJoinPath g events tx net).g = g) ∧
    (c.setPollingOptions Globals.declared).2.defaultPollingOptions.Interval = 5 * Second ∧
    (c.setPollingOptions Globals.declared).2.defaultPollingOptions.Handler =
      some defaultHandler ∧
    (∀ broadcastPath basePollingPath : String,
      ((NewClient broadcastPath basePollingPath).setPollingOptions Globals.declared).2 =
        Globals.declared) := by
  have key : ∀ (c1 : Client) (g1 : Globals), (c1.setPollingOptions g1).2 = g1 := by
    intro c1 g1
    obtain ⟨bu, pu, ptr⟩ := c1
    cases ptr with
    | nil => rw [setPollingOptions_nil]
    | shared => rw [setPollingOptions_shared]
    | owned o => rw [setPollingOptions_owned]
  refine ⟨key c g, ?_, ?_, ?_, ?_⟩
  · intro urlJoinPath events tx net
    have h := congrArg Prod.snd (Poll_client_state c g urlJoinPath events tx net)
    exact h.trans (key c g)
  · rw [key c Globals.declared]
    rfl
  · rw [key c Globals.declared]
    rfl
  · intro broadcastPath basePollingPath
    exact key _ _

/-- C19, as stated, fails: a client whose options carry the interval -1 keeps it through
configuration resolution, and `Poll` on a transaction with a hash panics when it creates the
ticker, before any request. -/
theorem negative_interval_panics :
    (sampleNegativeClient.resolved Globals.declared).map (fun r => r.Interval) = some (-1) ∧
    (sampleNegativeClient.Poll sampleJoin Globals.declared
      [SelectEvent.tick (statusReply StatusConfirm)] samplePending { sent := [] }).exit =
        Exit.panicked ∧
    (sampleNegativeClient.Poll sampleJoin Globals.declared
      [SelectEvent.tick (statusReply StatusConfirm)] samplePending { sent := [] }).net.sent =
        [] := by
  refine ⟨by decide, by decide, by decide⟩

/-- C19, amended: for every client whose configured interval is not negative (zero and nil
options included), while the package default holds its declared value, the interval `Poll`
hands to the ticker after configuration resolution is strictly positive, and no call of `Poll`
panics. -/
theorem resolved_interval_positive (c : Client) (g : Globals)
    (hg : g.defaultPollingOptions = defaultPollingOptions)
    (hcfg : ∀ o : PollingOptions, c.deref g = some o → 0 ≤ o.Interval) :
    (∃ r : PollingOptions, c.resolved g = some r ∧ 0 < r.Interval) ∧
    (∀ (urlJoinPath : String → String → Except Error String) (events : List SelectEvent)
        (tx : transaction) (net : Net),
      (c.Poll urlJoinPath g events tx net).exit ≠ Exit.panicked) := by
  obtain ⟨r, hr, hpos⟩ := resolved_interval_pos c g hg hcfg
  refine ⟨⟨r, hr, hpos⟩, ?_⟩
  intro urlJoinPath events tx net
  obtain ⟨handler, hh⟩ := resolved_handler_some c g hg
  unfold Client.resolved at hr hh
  have hpos1 : ¬ r.Interval ≤ 0 := not_le.mpr hpos
  unfold Client.Poll
  simp only []
  by_cases hhash : tx.hash = ""
  · simp [hhash]
  · simp only [hhash, if_false]
    cases hj : urlJoinPath (c.setPollingOptions g).1.BasePollingUrl tx.hash with
    | error e => simp
    | ok url =>
      simp only [hr, hpos1, if_false]
      exact pollLoop_no_panic _ _ url handler hh events none tx net

theorem resolved_interval_positive_witness :
    (∃ r : PollingOptions, sampleStopClient.resolved Globals.declared = some r ∧
      0 < r.Interval) ∧
    (sampleStopClient.Poll sampleJoin Globals.declared
      [SelectEvent.tick (statusReply StatusConfirm)] samplePending { sent := [] }).exit ≠
        Exit.panicked :=
  have w := resolved_interval_positive sampleStopClient Globals.declared rfl
    (fun o h => by
      cases h
      decide)
  ⟨w.1, w.2 sampleJoin [SelectEvent.tick (statusReply StatusConfirm)] samplePending
    { sent := [] }⟩

end TransactionClient
